import Mathlib

/-!
# Confidential template deployment (portainerCC)

A shallow embedding of `deployConfidentialTemplate`
(`api/http/handler/portainercc/confidential_templates_deploy.go`).

* Go maps are association lists that may be nil; a write to a nil map and a
  failed unchecked type assertion abort the handler with a run-time panic.
* The handler is a function of a `World`, which fixes the answer of every
  external collaborator (request decoding, datastore, container runtime,
  coordinator, key generation).  A run yields the list of external calls it
  made, in order, and its final result.
* Go strings that reach the handler come from decoded JSON and hence are valid
  UTF-8; they are modelled by Lean strings, a rune being a `Char`.
* A slice is a list (a nil slice and an empty slice are not told apart), and a
  `range` over a map visits the entries in the order of the association list.
* On the bootstrap path the persisted manifest shares its maps with the
  fragment; the merge then assigns every value onto itself, which the value
  semantics of `mergeFragment` reproduces.
-/

set_option autoImplicit false

namespace PortainerCC

/-! ## Go maps -/

/-- A Go map with string keys: either the nil map or an allocated map holding
its entries.  A well-formed map holds every key once (`GoMap.WF`). -/
inductive GoMap (V : Type) where
  | nil : GoMap V
  | mk (entries : List (String × V)) : GoMap V
deriving DecidableEq, Repr

namespace GoMap

variable {V : Type}

/-- The entries visited by `for k, v := range m`; none for the nil map. -/
def entries : GoMap V → List (String × V)
  | nil => []
  | mk es => es

/-- The keys of the map. -/
def keys (m : GoMap V) : List String :=
  m.entries.map Prod.fst

/-- Every key occurs once. -/
def WF (m : GoMap V) : Prop :=
  m.keys.Nodup

/-- The comma-ok read `v, ok := m[k]` on the entries. -/
def lookupEntries : List (String × V) → String → Option V
  | [], _ => none
  | (k, v) :: es, key => if k = key then some v else lookupEntries es key

/-- The comma-ok read `v, ok := m[k]`; a nil map has no key. -/
def lookup (m : GoMap V) (key : String) : Option V :=
  lookupEntries m.entries key

/-- The plain read `m[k]`: the zero value of `V` when the key is missing. -/
def read [Inhabited V] (m : GoMap V) (key : String) : V :=
  (m.lookup key).getD default

/-- Overwrite the entry of `key`, or add one when the key is new. -/
def setEntries : List (String × V) → String → V → List (String × V)
  | [], key, v => [(key, v)]
  | (k, x) :: es, key, v => if k = key then (k, v) :: es else (k, x) :: setEntries es key v

/-- The assignment `m[k] = v`; `none` is the panic of a write to a nil map. -/
def write (m : GoMap V) (key : String) (v : V) : Option (GoMap V) :=
  match m with
  | nil => none
  | mk es => some (mk (setEntries es key v))

/-- The result of `make(map[string]V)`. -/
def empty : GoMap V := mk []

/-- Whether the map is the nil map. -/
def isNil : GoMap V → Bool
  | nil => true
  | mk _ => false

instance : Inhabited (GoMap V) := ⟨nil⟩

instance (m : GoMap V) : Decidable m.WF :=
  inferInstanceAs (Decidable m.keys.Nodup)

end GoMap

/-! ## Strings: `strings.Replace` and `base64.StdEncoding` -/

/-- Whether `p` starts the list `s`. -/
def startsWith : List Char → List Char → Bool
  | [], _ => true
  | _ :: _, [] => false
  | p :: ps, c :: cs => p == c && startsWith ps cs

/-- The scan of `strings.Replace(s, old, new, -1)` for a non-empty `old`:
`skip` counts the runes of the current match still to be dropped. -/
def replaceScan (old new : List Char) : Nat → List Char → List Char
  | _, [] => []
  | skip + 1, _ :: cs => replaceScan old new skip cs
  | 0, c :: cs =>
    if startsWith old (c :: cs) then new ++ replaceScan old new (old.length - 1) cs
    else c :: replaceScan old new 0 cs

/-- The case of an empty `old`: `new` goes before every rune and at the end. -/
def replaceEmpty (new : List Char) : List Char → List Char
  | [] => new
  | c :: cs => new ++ c :: replaceEmpty new cs

/-- The call `strings.Replace(s, old, new, -1)`. -/
def stringsReplace (s old new : String) : String :=
  if old = new then s
  else if old.data = [] then ⟨replaceEmpty new.data s.data⟩
  else ⟨replaceScan old.data new.data 0 s.data⟩

/-- The UTF-8 bytes of a rune. -/
def utf8Char (c : Char) : List Nat :=
  let n := c.toNat
  if n < 0x80 then [n]
  else if n < 0x800 then [0xC0 + n / 0x40, 0x80 + n % 0x40]
  else if n < 0x10000 then [0xE0 + n / 0x1000, 0x80 + n / 0x40 % 0x40, 0x80 + n % 0x40]
  else [0xF0 + n / 0x40000, 0x80 + n / 0x1000 % 0x40, 0x80 + n / 0x40 % 0x40, 0x80 + n % 0x40]

/-- The conversion `[]byte(s)`. -/
def stringBytes (s : String) : List Nat :=
  s.data.flatMap utf8Char

/-- The alphabet of the standard base64 encoding. -/
def base64Alphabet : List Char :=
  "ABCDEFGHIJKLMNOPQRSTUVWXYZabcdefghijklmnopqrstuvwxyz0123456789+/".data

/-- The base64 digit of a 6-bit value. -/
def base64Digit (n : Nat) : Char :=
  base64Alphabet.getD (n % 64) 'A'

/-- Standard base64 of a byte list, three bytes at a time, padded with `=`. -/
def base64Chars : List Nat → List Char
  | [] => []
  | [a] => [base64Digit (a / 4), base64Digit (a % 4 * 16), '=', '=']
  | [a, b] =>
    [base64Digit (a / 4), base64Digit (a % 4 * 16 + b / 16), base64Digit (b % 16 * 4), '=']
  | a :: b :: c :: rest =>
    base64Digit (a / 4) :: base64Digit (a % 4 * 16 + b / 16) ::
      base64Digit (b % 16 * 4 + c / 64) :: base64Digit (c % 64) :: base64Chars rest

/-- The call `base64.StdEncoding.EncodeToString`. -/
def base64EncodeToString (bytes : List Nat) : String :=
  ⟨base64Chars bytes⟩

/-! ## Data model -/

/-- Modelled from the spec: the declaration of a template input is not in the
source file; these are the fields the handler reads (`Type_` is Go `Type`). -/
structure ConfidentialTemplateInput where
  Label : String := ""
  Type_ : String := ""
  SecretName : String := ""
  ReplacePattern : String := ""
  PortContainer : String := ""
  PortType : String := ""
deriving DecidableEq, Repr

/-- Modelled from the spec: `portainer.ConfidentialTemplate`, with the fields
the handler reads. -/
structure ConfidentialTemplate where
  ImageName : String := ""
  Inputs : List ConfidentialTemplateInput := []
  Secrets : GoMap String := GoMap.nil
deriving DecidableEq, Repr

/-- The request body, `ConfTempDeployParams`. -/
structure ConfTempDeployParams where
  Id : Nat := 0
  EnvId : Int := 0
  Name : String := ""
  Inputs : GoMap String := GoMap.nil
deriving DecidableEq, Repr

/-- Modelled from the spec: a package entry, name to enclave identity. -/
structure PackageProperties where
  UniqueID : String := ""
  SignerID : String := ""
deriving DecidableEq, Repr

/-- Modelled from the spec: a marble entry, package reference and parameters. -/
structure Marble where
  Package : String := ""
  Parameters : GoMap String := GoMap.nil
deriving DecidableEq, Repr

/-- Modelled from the spec: a secret declaration (its constraint). -/
structure Secret where
  Type_ : String := ""
  UserDefined : Bool := false
deriving DecidableEq, Repr

/-- The user entry `portainer.CoordinatorUser` as built at lines 185-192. -/
structure CoordinatorUser where
  Certificate : String := ""
  Roles : List String := []
deriving DecidableEq, Repr

/-- The role entry `portainer.CoordinatorRole` as built at lines 194-207. -/
structure CoordinatorRole where
  ResourceType : String := ""
  ResourceNames : List String := []
  Actions : List String := []
deriving DecidableEq, Repr

instance : Inhabited PackageProperties := ⟨{}⟩
instance : Inhabited Marble := ⟨{}⟩
instance : Inhabited Secret := ⟨{}⟩
instance : Inhabited CoordinatorUser := ⟨{}⟩
instance : Inhabited CoordinatorRole := ⟨{}⟩

/-- The manifest `portainer.CoordinatorManifest`: five maps, all nil in the
zero value. -/
structure CoordinatorManifest where
  Packages : GoMap PackageProperties := GoMap.nil
  Marbles : GoMap Marble := GoMap.nil
  Users : GoMap CoordinatorUser := GoMap.nil
  Roles : GoMap CoordinatorRole := GoMap.nil
  Secrets : GoMap Secret := GoMap.nil
deriving DecidableEq, Repr

/-- A `pem.Block`. -/
structure PemBlock where
  Type_ : String := ""
  Headers : GoMap String := GoMap.nil
  Bytes : List Nat := []
deriving DecidableEq, Repr

/-- The persisted aggregate `portainer.CoordinatorDeployment`. -/
structure CoordinatorDeployment where
  ID : Int := 0
  EndpointID : Int := 0
  Manifest : CoordinatorManifest := {}
  RootCert : PemBlock := {}
  UserCert : PemBlock := {}
  UserPrivateKey : PemBlock := {}
deriving DecidableEq, Repr

/-- The fields of `portainer.Endpoint` the handler reads. -/
structure Endpoint where
  ID : Int := 0
  URL : String := ""
deriving DecidableEq, Repr

/-- The key record `portainer.Key`: the base64 key of a volume. -/
structure Key where
  PFKey : String := ""
deriving DecidableEq, Repr

/-- The error of a repository read. -/
inductive DbError where
  | objectNotFound
  | other (msg : String)
deriving DecidableEq, Repr

/-- A value decoded by `json.Unmarshal` into `interface{}`. -/
inductive JsonVal where
  | null
  | bool (b : Bool)
  | number (text : String)
  | str (s : String)
  | array (items : List JsonVal)
  | object (fields : List (String × JsonVal))

/-- The assertion `x.(map[string]interface{})` on a map read; `none` is the
panic of the failed assertion (missing key, null or another kind). -/
def JsonVal.assertObject : Option JsonVal → Option (List (String × JsonVal))
  | some (JsonVal.object fields) => some fields
  | _ => none

/-- The assertion `x.(string)` on a map read; `none` is the panic. -/
def JsonVal.assertString : Option JsonVal → Option String
  | some (JsonVal.str s) => some s
  | _ => none

/-- A `nat.PortBinding`. -/
structure PortBinding where
  HostIP : String := ""
  HostPort : String := ""
deriving DecidableEq, Repr

/-- A `mount.Mount` of the fields the handler sets. -/
structure Mount where
  Type_ : String := ""
  Source : String := ""
  Target : String := ""
deriving DecidableEq, Repr

/-- A `container.DeviceMapping`. -/
structure DeviceMapping where
  PathOnHost : String
  PathInContainer : String
  CgroupPermissions : String
deriving DecidableEq, Repr

/-- The arguments of `client.ContainerCreate` (lines 410-447). -/
structure ContainerSpec where
  Image : String
  ExposedPorts : GoMap Unit
  Env : List String
  Domainname : String
  PortBindings : GoMap (List PortBinding)
  PublishAllPorts : Bool
  Mounts : List Mount
  Devices : List DeviceMapping
  Name : String
deriving DecidableEq, Repr

/-- The body of a POST to the coordinator, before JSON encoding. -/
inductive PostBody where
  | manifest (m : CoordinatorManifest)
  | secrets (s : GoMap (GoMap String))
deriving DecidableEq, Repr

/-- An `httperror.HandlerError`. -/
structure HandlerError where
  StatusCode : Nat
  Message : String
  Err : String
deriving DecidableEq, Repr

/-- The error `httperror.BadRequest(msg, err)`. -/
def badRequest (msg err : String) : HandlerError := ⟨400, msg, err⟩

/-- The error `httperror.InternalServerError(msg, err)`. -/
def internalServerError (msg err : String) : HandlerError := ⟨500, msg, err⟩

/-! ## Runs: external calls and results -/

/-- An external call made by the handler. -/
inductive Event where
  | templateLookup (id : Nat)
  | endpointLookup (id : Int)
  | createClient (endpoint : Int)
  | imagePull (image : String)
  | imageInspect (image : String)
  | endpointsList
  | coordinatorDeploymentsList
  | generateKey
  | createUserCert
  | coordinatorPost (path : String) (body : PostBody)
  | genFileKey (secret : String)
  | volumeInspect (volume : String)
  | keyLookup (id : Int)
  | coordinatorDeploymentUpdate (id : Int) (cd : CoordinatorDeployment)
  | containerCreate (spec : ContainerSpec)
  | networkConnect (network : String) (container : String)
  | containerStart (container : String)
  | networkDisconnect (network : String) (container : String)
deriving DecidableEq, Repr

/-- How a piece of the handler ends: with a value, with a returned
`HandlerError`, or with a run-time panic. -/
inductive Res (α : Type) where
  | val (a : α)
  | fail (e : HandlerError)
  | panic
deriving DecidableEq, Repr

/-- A run of a piece of the handler: the external calls made, in order, and
how it ended. -/
structure Step (α : Type) where
  trace : List Event
  res : Res α
deriving DecidableEq, Repr

namespace Step

variable {α β : Type}

/-- Sequencing: the rest runs only after a value. -/
def andThen (s : Step α) (f : α → Step β) : Step β :=
  match s.res with
  | Res.val a => ⟨s.trace ++ (f a).trace, (f a).res⟩
  | Res.fail e => ⟨s.trace, Res.fail e⟩
  | Res.panic => ⟨s.trace, Res.panic⟩

instance : Monad Step where
  pure a := ⟨[], Res.val a⟩
  bind := andThen

/-- Record an external call. -/
def call (ev : Event) : Step Unit := ⟨[ev], Res.val ()⟩

/-- The statement `return httperror...`. -/
def failWith (e : HandlerError) : Step α := ⟨[], Res.fail e⟩

/-- A run-time panic. -/
def goPanic : Step α := ⟨[], Res.panic⟩

/-- The idiom `if err != nil { return httperror.BadRequest(msg, err) }`. -/
def orBadRequest (msg : String) : Except String α → Step α
  | Except.ok a => pure a
  | Except.error err => failWith (badRequest msg err)

/-- The idiom `if err != nil { return httperror.InternalServerError(msg, err) }`. -/
def orInternal (msg : String) : Except String α → Step α
  | Except.ok a => pure a
  | Except.error err => failWith (internalServerError msg err)

/-- A value that exists unless the code panics. -/
def orPanic : Option α → Step α
  | some a => pure a
  | none => goPanic

end Step

/-- The answers of the external collaborators of one request. -/
structure World where
  /-- `json.NewDecoder(r.Body).Decode(&params)` -/
  decodeBody : Except String ConfTempDeployParams
  /-- `DataStore.ConfidentialTemplate().ConfidentialTemplate(id)` -/
  confidentialTemplate : Nat → Except String ConfidentialTemplate
  /-- `DataStore.Endpoint().Endpoint(id)` -/
  endpoint : Int → Except String Endpoint
  /-- `DockerClientFactory.CreateClient(endpoint, "", nil)` -/
  createClient : Endpoint → Except String Unit
  /-- `client.ImagePull` -/
  imagePull : String → Except String Unit
  /-- `client.ImageInspectWithRaw`, then `json.Unmarshal(inspectRaw, &JSON)` -/
  imageInspect : String → Except String (GoMap JsonVal)
  /-- The manifest builder `createUpdateManifest`, defined outside the source file -/
  createUpdateManifest :
    ConfidentialTemplate → ConfTempDeployParams → String → String → CoordinatorManifest
  /-- `DataStore.Endpoint().Endpoints()` -/
  endpoints : Except String (List Endpoint)
  /-- `DataStore.CoordinatorDeployment().CoordinatorDeployments()` -/
  coordinatorDeployments : Except String (List CoordinatorDeployment)
  /-- `rsa.GenerateKey(rand.Reader, 4096)`, as the PKCS#1 bytes of the key -/
  generateKey : Except String (List Nat)
  /-- `ra.CreateUserCert(userCertPrivKey)` -/
  createUserCert : List Nat → Except String (List Nat)
  /-- The text written by `pem.Encode` -/
  pemEncode : PemBlock → String
  /-- `json.Marshal(manifest)` -/
  marshalManifest : CoordinatorManifest → Except String Unit
  /-- `url.ParseURL(endpoint.URL)` -/
  parseURL : String → Except String String
  /-- `cl.Post("https://coordinator:9001/" + path, ...)`: a transport error, or
  the status code of the response -/
  post : String → PostBody → Except String Nat
  /-- `ioutil.TempFile("", "super")`, per secret name -/
  tempFile : String → Except String String
  /-- `exec.Command("gramine-sgx-pf-crypt", "gen-key", "-w", file).Output()` -/
  genKey : String → Except String Unit
  /-- `ioutil.ReadFile(file)` -/
  readFile : String → Except String (List Nat)
  /-- `client.VolumeInspectWithRaw`, then `json.Unmarshal(inspectRaw, &JSON)` -/
  volumeInspect : String → Except String (GoMap JsonVal)
  /-- `strconv.Atoi`, its error dropped -/
  atoi : String → Int
  /-- `DataStore.Key().Key(id)`: the returned key (nil or not) and error -/
  key : Int → Option Key × Option DbError
  /-- `DataStore.CoordinatorDeployment().Update(id, &cd)` -/
  update : Int → CoordinatorDeployment → Except String Unit
  /-- `nat.NewPort(proto, port)` -/
  newPort : String → String → Except String String
  /-- `client.ContainerCreate`, returning the container ID -/
  containerCreate : ContainerSpec → Except String String
  /-- `client.NetworkConnect` -/
  networkConnect : String → String → Except String Unit
  /-- `client.ContainerStart` -/
  containerStart : String → Except String Unit
  /-- `client.NetworkDisconnect` -/
  networkDisconnect : String → String → Except String Unit

/-! ## The handler, piece by piece -/

open Step

/-- Total assignment `m[k] = v` on a map the handler itself allocated. -/
def GoMap.put {V : Type} (m : GoMap V) (key : String) (v : V) : GoMap V :=
  GoMap.mk (GoMap.setEntries m.entries key v)

/-- Lines 58-64: every declared input label must be a key of the request map. -/
def validateInputs (inputs : List ConfidentialTemplateInput) (reqInputs : GoMap String) :
    Step Unit :=
  match inputs with
  | [] => pure ()
  | val :: rest =>
    match reqInputs.lookup val.Label with
    | none => failWith (badRequest "request body malefomred" "values missing.")
    | some _ => validateInputs rest reqInputs

/-- Lines 44-64: decode the body, load the template, validate the inputs. -/
def readRequest (w : World) : Step (ConfTempDeployParams × ConfidentialTemplate) := do
  let params ← orBadRequest "request body malefomred" w.decodeBody
  call (Event.templateLookup params.Id)
  let template ← orBadRequest "invalid template id" (w.confidentialTemplate params.Id)
  validateInputs template.Inputs params.Inputs
  pure (params, template)

/-- Lines 100-107: the four unchecked type assertions on the inspected image. -/
def extractIdentity (JSON : GoMap JsonVal) : Step (String × String) := do
  let cfg ← orPanic (JsonVal.assertObject (JSON.lookup "Config"))
  let labels ← orPanic (JsonVal.assertObject (GoMap.lookupEntries cfg "Labels"))
  let mrenclave ← orPanic (JsonVal.assertString (GoMap.lookupEntries labels "pcc.mrenclave"))
  let mrsigner ← orPanic (JsonVal.assertString (GoMap.lookupEntries labels "pcc.mrsigner"))
  pure (mrenclave, mrsigner)

/-- Lines 66-107: endpoint, docker client, image pull and inspect, identity. -/
def inspectImage (w : World) (params : ConfTempDeployParams) (template : ConfidentialTemplate) :
    Step (Endpoint × String × String) := do
  call (Event.endpointLookup params.EnvId)
  let endpoint ← orInternal "unable to find requested endpoint" (w.endpoint params.EnvId)
  call (Event.createClient endpoint.ID)
  orInternal "could not create docker client" (w.createClient endpoint)
  call (Event.imagePull template.ImageName)
  orInternal "Unable to pull image" (w.imagePull template.ImageName)
  call (Event.imageInspect template.ImageName)
  let JSON ← orInternal "Unable to inspect image" (w.imageInspect template.ImageName)
  let (mrenclave, mrsigner) ← extractIdentity JSON
  pure (endpoint, mrenclave, mrsigner)

/-- Lines 142-147: the last deployment of the endpoint, else the zero value. -/
def selectDeployment (deployments : List CoordinatorDeployment) (envId : Int) :
    CoordinatorDeployment :=
  deployments.foldl (fun cd deployment => if deployment.EndpointID = envId then deployment else cd)
    {}

/-- Lines 185-192: the seeded users. -/
def seedUsers (certificate : String) : GoMap CoordinatorUser :=
  GoMap.mk [("portainer", ⟨certificate, ["updatePackage", "secretManager"]⟩)]

/-- Lines 194-207: the seeded roles. -/
def seedRoles : GoMap CoordinatorRole :=
  GoMap.mk [("updatePackage", ⟨"Packages", [], ["UpdateSecurityVersion"]⟩),
    ("secretManager", ⟨"Secrets", [], ["ReadSecret", "WriteSecret"]⟩)]

/-- Lines 149-210: the coordinator path, the manifest to submit and the
aggregate to persist.  A zero manifest starts the issue of a key pair and a
certificate, and the seeding of users and roles. -/
def manifestLifecycle (w : World) (manifest : CoordinatorManifest)
    (coordinatorDeployment : CoordinatorDeployment) :
    Step (String × CoordinatorManifest × CoordinatorDeployment) :=
  if coordinatorDeployment.Manifest = {} then do
    call Event.generateKey
    let userCertPrivKey ← orInternal "unable to create user certificate private key" w.generateKey
    call Event.createUserCert
    let userCertBytes ← orInternal "Could not create user certificate"
      (w.createUserCert userCertPrivKey)
    let certBlock : PemBlock := ⟨"CERTIFICATE", GoMap.empty, userCertBytes⟩
    let keyBlock : PemBlock := ⟨"RSA PRIVATE KEY", GoMap.empty, userCertPrivKey⟩
    let manifest := { manifest with
      Users := seedUsers (w.pemEncode ⟨"CERTIFICATE", GoMap.nil, userCertBytes⟩),
      Roles := seedRoles }
    pure ("manifest", manifest,
      { coordinatorDeployment with
        UserPrivateKey := keyBlock, UserCert := certBlock, Manifest := manifest })
  else
    pure ("update", manifest, coordinatorDeployment)

/-- Lines 121-210: build the fragment, select the aggregate, choose the path. -/
def prepareManifest (w : World) (params : ConfTempDeployParams)
    (template : ConfidentialTemplate) (mrenclave mrsigner : String) :
    Step (String × CoordinatorManifest × CoordinatorDeployment) := do
  let manifest := w.createUpdateManifest template params mrenclave mrsigner
  call Event.endpointsList
  let _ ← orInternal "Unable to retrieve environments" w.endpoints
  call Event.coordinatorDeploymentsList
  let coordinatorDeployments ←
    orInternal "Could not fetch coordinator Deployments from DB" w.coordinatorDeployments
  manifestLifecycle w manifest (selectDeployment coordinatorDeployments params.EnvId)

/-- Lines 212-266: marshal the manifest, parse the endpoint URL, POST the
manifest.  Only a transport error of the POST is looked at. -/
def submitManifest (w : World) (endpoint : Endpoint) (path : String)
    (manifest : CoordinatorManifest) : Step Unit := do
  orInternal "Could not marshal manifest" (w.marshalManifest manifest)
  let _ ← orInternal "Could not parse endpoint URL" (w.parseURL endpoint.URL)
  call (Event.coordinatorPost path (PostBody.manifest manifest))
  let _ ← orInternal "error request" (w.post path (PostBody.manifest manifest))
  pure ()

/-- The read `replacedStrings[k]["Key"]`. -/
def getKey (replacedStrings : GoMap (GoMap String)) (k : String) : String :=
  (replacedStrings.read k).read "Key"

/-- The assignment `replacedStrings[k]["Key"] = x`. -/
def setKey (replacedStrings : GoMap (GoMap String)) (k x : String) : GoMap (GoMap String) :=
  replacedStrings.put k ((replacedStrings.read k).put "Key" x)

/-- Lines 303-307: substitute the SECRET inputs bound to secret `k`. -/
def substituteInputs (inputs : List ConfidentialTemplateInput) (reqInputs : GoMap String)
    (k : String) (replacedStrings : GoMap (GoMap String)) : GoMap (GoMap String) :=
  inputs.foldl (fun rs val =>
    if val.Type_ = "SECRET" ∧ val.SecretName = k then
      setKey rs k (stringsReplace (getKey rs k) val.ReplacePattern (reqInputs.read val.Label))
    else rs) replacedStrings

/-- Lines 272-311: resolve every template secret, in the order the map is
ranged over. -/
def resolveSecrets (w : World) (template : ConfidentialTemplate) (reqInputs : GoMap String) :
    List (String × String) → GoMap (GoMap String) → Step (GoMap (GoMap String))
  | [], replacedStrings => pure replacedStrings
  | (k, v) :: rest, replacedStrings => do
    let replacedStrings := replacedStrings.put k GoMap.empty
    if v = "RANDOM_KEY" then
      call (Event.genFileKey k)
      let tempKeyFile ← orInternal "could not generate file key" (w.tempFile k)
      orInternal "could not generate file key" (w.genKey tempKeyFile)
      let file ← orInternal "could not generate file key" (w.readFile tempKeyFile)
      resolveSecrets w template reqInputs rest
        (setKey replacedStrings k (base64EncodeToString file))
    else
      let replacedStrings := setKey replacedStrings k (template.Secrets.read k)
      let replacedStrings := substituteInputs template.Inputs reqInputs k replacedStrings
      resolveSecrets w template reqInputs rest
        (setKey replacedStrings k (base64EncodeToString (stringBytes (getKey replacedStrings k))))

/-- Lines 313-354: for every VOLUME input, read the key id from the volume
labels, look the key up and attach it; a failed lookup is only printed. -/
def mountVolumes (w : World) (reqInputs : GoMap String) :
    List ConfidentialTemplateInput → GoMap (GoMap String) × List Mount →
      Step (GoMap (GoMap String) × List Mount)
  | [], acc => pure acc
  | val :: rest, (replacedStrings, mountedVolumes) =>
    if val.Type_ = "VOLUME" then do
      call (Event.volumeInspect (reqInputs.read val.Label))
      let JSON ← orInternal "Unable to inspect image" (w.volumeInspect (reqInputs.read val.Label))
      let labels ← orPanic (JsonVal.assertObject (JSON.lookup "Labels"))
      let idText ← orPanic (JsonVal.assertString (GoMap.lookupEntries labels "pfEncryptionKeyId"))
      let pfKeyId := w.atoi idText
      call (Event.keyLookup pfKeyId)
      let key ← orPanic (w.key pfKeyId).1
      let replacedStrings := replacedStrings.put val.SecretName GoMap.empty
      let replacedStrings := setKey replacedStrings val.SecretName key.PFKey
      mountVolumes w reqInputs rest (replacedStrings,
        mountedVolumes ++ [⟨"volume", reqInputs.read val.Label, val.Label⟩])
    else
      mountVolumes w reqInputs rest (replacedStrings, mountedVolumes)

/-- Lines 268-369: resolve the secrets and POST them to the coordinator. -/
def submitSecrets (w : World) (params : ConfTempDeployParams) (template : ConfidentialTemplate) :
    Step (List Mount) := do
  let replacedStrings ← resolveSecrets w template params.Inputs template.Secrets.entries
    GoMap.empty
  let (replacedStrings, mountedVolumes) ←
    mountVolumes w params.Inputs template.Inputs (replacedStrings, [])
  call (Event.coordinatorPost "secrets" (PostBody.secrets replacedStrings))
  let _ ← orInternal "Could not set secrets" (w.post "secrets" (PostBody.secrets replacedStrings))
  pure mountedVolumes

/-- Lines 374-376: copy every secret of the fragment by key. -/
def copySecrets : List (String × Secret) → GoMap Secret → Option (GoMap Secret)
  | [], target => some target
  | (key, value) :: rest, target => (target.write key value).bind (copySecrets rest)

/-- Lines 371-376: merge the fragment of deployment `name` into the persisted
manifest; `none` is the panic of a write to a nil map. -/
def mergeFragment (name : String) (manifest persisted : CoordinatorManifest) :
    Option CoordinatorManifest :=
  (persisted.Packages.write name (manifest.Packages.read name)).bind fun packages =>
  (persisted.Marbles.write (name ++ "_marble") (manifest.Marbles.read (name ++ "_marble"))).bind
    fun marbles =>
  (copySecrets manifest.Secrets.entries persisted.Secrets).bind fun secrets =>
  some { persisted with Packages := packages, Marbles := marbles, Secrets := secrets }

/-- Lines 371-381: merge, then the one write to the repository. -/
def writeBack (w : World) (params : ConfTempDeployParams) (manifest : CoordinatorManifest)
    (coordinatorDeployment : CoordinatorDeployment) : Step Unit := do
  let merged ← orPanic (mergeFragment params.Name manifest coordinatorDeployment.Manifest)
  let coordinatorDeployment := { coordinatorDeployment with Manifest := merged }
  call (Event.coordinatorDeploymentUpdate coordinatorDeployment.ID coordinatorDeployment)
  orInternal "Could not update manifest in DB"
    (w.update coordinatorDeployment.ID coordinatorDeployment)

/-- Lines 389-408: the exposed ports and host bindings of the PORT inputs. -/
def portMapping (w : World) (reqInputs : GoMap String) :
    List ConfidentialTemplateInput → GoMap Unit × GoMap (List PortBinding) →
      Step (GoMap Unit × GoMap (List PortBinding))
  | [], acc => pure acc
  | val :: rest, (exposedPorts, portBinding) =>
    if val.Type_ = "PORT" then do
      let p ← orInternal "unable to create port" (w.newPort val.PortType val.PortContainer)
      portMapping w reqInputs rest
        (exposedPorts.put p (), portBinding.put p [⟨"", reqInputs.read val.Label⟩])
    else
      portMapping w reqInputs rest (exposedPorts, portBinding)

/-- The three device mappings of lines 426-442. -/
def sgxDevices : List DeviceMapping :=
  [⟨"/dev/sgx/enclave", "/dev/sgx/enclave", "rw"⟩,
   ⟨"/dev/sgx/enclave", "/dev/sgx_enclave", "rw"⟩,
   ⟨"/dev/sgx_provision", "/dev/sgx_provision", "rw"⟩]

/-- Lines 389-471: create, connect and start the container. -/
def deployContainer (w : World) (params : ConfTempDeployParams)
    (template : ConfidentialTemplate) (mountedVolumes : List Mount) : Step String := do
  let (exposedPorts, portBinding) ←
    portMapping w params.Inputs template.Inputs (GoMap.empty, GoMap.empty)
  let spec : ContainerSpec :=
    { Image := template.ImageName
      ExposedPorts := exposedPorts
      Env := ["EDG_MARBLE_TYPE=" ++ params.Name ++ "_marble",
        "EDG_MARBLE_COORDINATOR_ADDR=coordinator:2001", "EDG_MARBLE_DNS_NAMES=localhost,app"]
      Domainname := "coordinator"
      PortBindings := portBinding
      PublishAllPorts := true
      Mounts := mountedVolumes
      Devices := sgxDevices
      Name := params.Name }
  call (Event.containerCreate spec)
  let id ← orInternal "unable to create container" (w.containerCreate spec)
  call (Event.networkConnect "coordinator" id)
  orInternal "could not connect container to coordinator network"
    (w.networkConnect "coordinator" id)
  call (Event.containerStart id)
  orInternal "Could not start container" (w.containerStart id)
  call (Event.networkDisconnect "bridge" id)
  orInternal "could not remove container from bridge network" (w.networkDisconnect "bridge" id)
  pure id

/-- Lines 66-376 and the write-back: all that follows a validated request up
to the single repository write. -/
def commitDeployment (w : World) (params : ConfTempDeployParams)
    (template : ConfidentialTemplate) : Step (List Mount) := do
  let (endpoint, mrenclave, mrsigner) ← inspectImage w params template
  let (path, manifest, coordinatorDeployment) ←
    prepareManifest w params template mrenclave mrsigner
  submitManifest w endpoint path manifest
  let mountedVolumes ← submitSecrets w params template
  writeBack w params manifest coordinatorDeployment
  pure mountedVolumes

/-- The handler `deployConfidentialTemplate`; its value is the container ID
written to the response. -/
def deployConfidentialTemplate (w : World) : Step String := do
  let (params, template) ← readRequest w
  let mountedVolumes ← commitDeployment w params template
  deployContainer w params template mountedVolumes

/-! ## Derived notions used by the statements -/

/-- The piece of the handler an external call belongs to: 0 request, 1 image,
2 manifest preparation, 3 manifest submission, 4 secrets, 5 write-back,
6 container. -/
@[simp] def Event.stage : Event → Nat
  | Event.templateLookup _ => 0
  | Event.endpointLookup _ => 1
  | Event.createClient _ => 1
  | Event.imagePull _ => 1
  | Event.imageInspect _ => 1
  | Event.endpointsList => 2
  | Event.coordinatorDeploymentsList => 2
  | Event.generateKey => 2
  | Event.createUserCert => 2
  | Event.coordinatorPost _ (PostBody.manifest _) => 3
  | Event.coordinatorPost _ (PostBody.secrets _) => 4
  | Event.genFileKey _ => 4
  | Event.volumeInspect _ => 4
  | Event.keyLookup _ => 4
  | Event.coordinatorDeploymentUpdate _ _ => 5
  | Event.containerCreate _ => 6
  | Event.networkConnect _ _ => 6
  | Event.containerStart _ => 6
  | Event.networkDisconnect _ _ => 6

/-- A call to the container runtime or to the coordinator. -/
def Event.isNetworkCall : Event → Bool
  | Event.imagePull _ => true
  | Event.imageInspect _ => true
  | Event.coordinatorPost _ _ => true
  | Event.volumeInspect _ => true
  | Event.containerCreate _ => true
  | Event.networkConnect _ _ => true
  | Event.containerStart _ => true
  | Event.networkDisconnect _ _ => true
  | _ => false

/-- A write to the CoordinatorDeployment repository. -/
def Event.isUpdate : Event → Bool
  | Event.coordinatorDeploymentUpdate _ _ => true
  | _ => false

/-- The value found under `replacedStrings[k]["Key"]`, if both keys exist. -/
def keyOf (replacedStrings : GoMap (GoMap String)) (k : String) : Option String :=
  (replacedStrings.lookup k).bind fun inner => inner.lookup "Key"

/-- The literal secret as the spec words it: take the template string and
substitute, for every input of type SECRET bound to secret `k`, the replace
pattern by the value the request gives for the label of the input; then
base64-encode. -/
def specLiteralSecret (inputs : List ConfidentialTemplateInput) (reqInputs : GoMap String)
    (k v : String) : String :=
  base64EncodeToString (stringBytes
    ((inputs.filter fun val => val.Type_ = "SECRET" ∧ val.SecretName = k).foldl
      (fun text val => stringsReplace text val.ReplacePattern (reqInputs.read val.Label)) v))

/-- The key generation of a RANDOM_KEY secret succeeds in the world. -/
def World.fileKeyAvailable (w : World) (k : String) : Prop :=
  ∃ file bytes, w.tempFile k = Except.ok file ∧ w.genKey file = Except.ok () ∧
    w.readFile file = Except.ok bytes

/-- The template of the scenario of the spec. -/
def demoTemplate : ConfidentialTemplate :=
  { ImageName := "w:1"
    Inputs := [
      { Label := "PORT", Type_ := "PORT", PortContainer := "8080", PortType := "tcp" },
      { Label := "TOK", Type_ := "SECRET", SecretName := "s1", ReplacePattern := "<<X>>" }]
    Secrets := GoMap.mk [("s1", "token=<<X>>")] }

/-- The request of the scenario of the spec. -/
def demoParams : ConfTempDeployParams :=
  { Id := 1, EnvId := 2, Name := "app", Inputs := GoMap.mk [("PORT", "9090"), ("TOK", "abc")] }

/-- An inspected image that carries both identity labels. -/
def demoImage : GoMap JsonVal :=
  GoMap.mk [("Config", JsonVal.object [("Labels", JsonVal.object
    [("pcc.mrenclave", JsonVal.str "aa"), ("pcc.mrsigner", JsonVal.str "bb")])])]

/-- A fragment with one package, one marble and one secret declaration. -/
def demoFragment (name mrenclave mrsigner : String) : CoordinatorManifest :=
  { Packages := GoMap.mk [(name, ⟨mrenclave, mrsigner⟩)]
    Marbles := GoMap.mk [(name ++ "_marble", ⟨name, GoMap.nil⟩)]
    Secrets := GoMap.mk [("s1", ⟨"plain", true⟩)] }

/-- A world in which every collaborator succeeds; endpoint 2 has a
CoordinatorDeployment with a zero manifest. -/
def demoWorld : World :=
  { decodeBody := Except.ok demoParams
    confidentialTemplate := fun _ => Except.ok demoTemplate
    endpoint := fun id => Except.ok ⟨id, "tcp://host:2375"⟩
    createClient := fun _ => Except.ok ()
    imagePull := fun _ => Except.ok ()
    imageInspect := fun _ => Except.ok demoImage
    createUpdateManifest := fun _ p mrenclave mrsigner => demoFragment p.Name mrenclave mrsigner
    endpoints := Except.ok []
    coordinatorDeployments := Except.ok [{ ID := 5, EndpointID := 2 }]
    generateKey := Except.ok [1, 2, 3]
    createUserCert := fun _ => Except.ok [4, 5]
    pemEncode := fun _ => "PEM"
    marshalManifest := fun _ => Except.ok ()
    parseURL := fun _ => Except.ok "host"
    post := fun _ _ => Except.ok 200
    tempFile := fun _ => Except.ok "/tmp/super1"
    genKey := fun _ => Except.ok ()
    readFile := fun _ => Except.ok [0, 1]
    volumeInspect := fun _ => Except.ok GoMap.nil
    atoi := fun _ => 0
    key := fun _ => (none, some DbError.objectNotFound)
    update := fun _ _ => Except.ok ()
    newPort := fun proto port => Except.ok (port ++ "/" ++ proto)
    containerCreate := fun _ => Except.ok "c1"
    networkConnect := fun _ _ => Except.ok ()
    containerStart := fun _ => Except.ok ()
    networkDisconnect := fun _ _ => Except.ok () }

/-- The request of the scenario without a value for the input TOK. -/
def missingTokWorld : World :=
  { demoWorld with
    decodeBody := Except.ok { demoParams with Inputs := GoMap.mk [("PORT", "9090")] } }

/-- The messages of the errors returned before the write-back (lines 48-364). -/
def beforeWriteBackMessages : List String :=
  ["request body malefomred", "invalid template id", "unable to find requested endpoint",
   "could not create docker client", "Unable to pull image", "Unable to inspect image",
   "Unable to retrieve environments", "Could not fetch coordinator Deployments from DB",
   "unable to create user certificate private key", "Could not create user certificate",
   "Could not marshal manifest", "failed to apply coordinator root certificate",
   "Could not parse endpoint URL", "error request", "could not generate file key",
   "Could not set secrets"]

/-- The messages of the errors returned by the write-back and after it
(lines 378-468). -/
def fromWriteBackMessages : List String :=
  ["Could not update manifest in DB", "unable to create port", "unable to create container",
   "could not connect container to coordinator network", "Could not start container",
   "could not remove container from bridge network"]

/-- The manifest submitted on the first deployment in `demoWorld`. -/
def demoSeededManifest : CoordinatorManifest :=
  { demoFragment "app" "aa" "bb" with Users := seedUsers "PEM", Roles := seedRoles }

/-- The world of the scenario, except that the coordinator answers the
manifest submission with status 500 (the POST itself reports no error). -/
def rejectingWorld : World :=
  { demoWorld with
    post := fun path _ => if path = "secrets" then Except.ok 200 else Except.ok 500 }

/-- The world of the scenario, except that the manifest POST fails in transport. -/
def unreachableWorld : World :=
  { demoWorld with
    post := fun path _ =>
      if path = "secrets" then Except.ok 200 else Except.error "connection refused" }

/-- The same world with every response status replaced by `f status`. -/
def World.mapStatus (w : World) (f : Nat → Nat) : World :=
  { w with post := fun path body => (w.post path body).map f }

/-- The inspected image has a Config object with a Labels object in which both
identity labels are strings. -/
def HasIdentity (JSON : GoMap JsonVal) (mrenclave mrsigner : String) : Prop :=
  ∃ cfg labels, JSON.lookup "Config" = some (JsonVal.object cfg) ∧
    GoMap.lookupEntries cfg "Labels" = some (JsonVal.object labels) ∧
    GoMap.lookupEntries labels "pcc.mrenclave" = some (JsonVal.str mrenclave) ∧
    GoMap.lookupEntries labels "pcc.mrsigner" = some (JsonVal.str mrsigner)

/-- An inspected image whose labels lack `pcc.mrsigner`. -/
def noSignerImage : GoMap JsonVal :=
  GoMap.mk [("Config", JsonVal.object [("Labels", JsonVal.object
    [("pcc.mrenclave", JsonVal.str "aa")])])]

/-- The world of the scenario with an image that lacks `pcc.mrsigner`. -/
def noSignerWorld : World :=
  { demoWorld with imageInspect := fun _ => Except.ok noSignerImage }

/-- The contract of the manifest builder (spec, sections 3 and 4.3): the
fragment of deployment `name` holds one package entry named `name`, one marble
entry named `name` followed by `_marble`, and secret declarations. -/
def FragmentFor (name : String) (fragment : CoordinatorManifest) : Prop :=
  fragment.Packages.keys = [name] ∧ fragment.Marbles.keys = [name ++ "_marble"] ∧
    fragment.Secrets.WF

/-- The manifest `m` is the fragment seeded with the one user "portainer",
who holds `certificate`, and with the two roles. -/
def Seeded (fragment : CoordinatorManifest) (certificate : String) (m : CoordinatorManifest) :
    Prop :=
  m.Users = seedUsers certificate ∧ m.Roles = seedRoles ∧ m.Packages = fragment.Packages ∧
    m.Marbles = fragment.Marbles ∧ m.Secrets = fragment.Secrets

/-- The two maps agree with `fragment` on the keys of the fragment and with
`old` on every other key. -/
def Overwrites {V : Type} (fragment old merged : GoMap V) : Prop :=
  ∀ key, (key ∈ fragment.keys → merged.lookup key = fragment.lookup key) ∧
    (key ∉ fragment.keys → merged.lookup key = old.lookup key)

/-- A CoordinatorDeployment of endpoint 2 that went through an earlier
deployment named "old". -/
def demoDeployed : CoordinatorDeployment :=
  { ID := 5
    EndpointID := 2
    Manifest :=
      { Packages := GoMap.mk [("old", ⟨"cc", "dd"⟩)]
        Marbles := GoMap.mk [("old_marble", ⟨"old", GoMap.nil⟩)]
        Users := seedUsers "PEM0"
        Roles := seedRoles
        Secrets := GoMap.mk [("s0", ⟨"plain", true⟩)] }
    RootCert := ⟨"CERTIFICATE", GoMap.empty, [9]⟩
    UserCert := ⟨"CERTIFICATE", GoMap.empty, [7]⟩
    UserPrivateKey := ⟨"RSA PRIVATE KEY", GoMap.empty, [8]⟩ }

/-- The world of the scenario on an endpoint that is already initialised. -/
def updateWorld : World :=
  { demoWorld with coordinatorDeployments := Except.ok [demoDeployed] }

/-- The aggregate persisted by the deployment in `updateWorld`. -/
def demoUpdated : CoordinatorDeployment :=
  { demoDeployed with
    Manifest :=
      { Packages := GoMap.mk [("old", ⟨"cc", "dd"⟩), ("app", ⟨"aa", "bb"⟩)]
        Marbles := GoMap.mk [("old_marble", ⟨"old", GoMap.nil⟩), ("app_marble", ⟨"app", GoMap.nil⟩)]
        Users := seedUsers "PEM0"
        Roles := seedRoles
        Secrets := GoMap.mk [("s0", ⟨"plain", true⟩), ("s1", ⟨"plain", true⟩)] } }

/-- The aggregate persisted by the first deployment in `demoWorld`. -/
def demoBootstrapped : CoordinatorDeployment :=
  { ID := 5
    EndpointID := 2
    Manifest := demoSeededManifest
    UserCert := ⟨"CERTIFICATE", GoMap.empty, [4, 5]⟩
    UserPrivateKey := ⟨"RSA PRIVATE KEY", GoMap.empty, [1, 2, 3]⟩ }

/-- The input `val` is a PORT input for which `nat.NewPort` yields port `p`. -/
def World.portOf (w : World) (val : ConfidentialTemplateInput) (p : String) : Prop :=
  val.Type_ = "PORT" ∧ w.newPort val.PortType val.PortContainer = Except.ok p

/-- Two PORT inputs that declare the same container port. -/
def twoPortInputs : List ConfidentialTemplateInput :=
  [{ Label := "A", Type_ := "PORT", PortContainer := "8080", PortType := "tcp" },
   { Label := "B", Type_ := "PORT", PortContainer := "8080", PortType := "tcp" }]

/-- A request that gives a different host port to each of the two inputs. -/
def twoPortRequest : GoMap String :=
  GoMap.mk [("A", "1"), ("B", "2")]

/-- The template of the scenario with a VOLUME input bound to secret "pfkey". -/
def volumeTemplate : ConfidentialTemplate :=
  { demoTemplate with
    Inputs := demoTemplate.Inputs ++ [{ Label := "VOL", Type_ := "VOLUME", SecretName := "pfkey" }] }

/-- The request of the scenario with the volume "data" for the input VOL. -/
def volumeParams : ConfTempDeployParams :=
  { demoParams with Inputs := GoMap.mk [("PORT", "9090"), ("TOK", "abc"), ("VOL", "data")] }

/-- A world in which the volume "data" records key id 7 and the key
repository has no record 7: the lookup returns no key and object-not-found. -/
def missingKeyWorld : World :=
  { demoWorld with
    decodeBody := Except.ok volumeParams
    confidentialTemplate := fun _ => Except.ok volumeTemplate
    volumeInspect := fun _ =>
      Except.ok (GoMap.mk [("Labels", JsonVal.object [("pfEncryptionKeyId", JsonVal.str "7")])])
    atoi := fun s => if s = "7" then 7 else 0
    key := fun _ => (none, some DbError.objectNotFound) }

/-- The same world, were the repository to return a zero key record together
with the object-not-found error. -/
def missingKeyZeroWorld : World :=
  { missingKeyWorld with key := fun _ => (some {}, some DbError.objectNotFound) }

/-! ## Reasoning about runs -/

namespace Step

variable {α β : Type}

@[simp] theorem trace_pure (a : α) : (pure a : Step α).trace = [] := rfl

@[simp] theorem res_pure (a : α) : (pure a : Step α).res = Res.val a := rfl

@[simp] theorem trace_call (ev : Event) : (call ev).trace = [ev] := rfl

@[simp] theorem res_call (ev : Event) : (call ev).res = Res.val () := rfl

@[simp] theorem trace_failWith (e : HandlerError) : (failWith e : Step α).trace = [] := rfl

@[simp] theorem res_failWith (e : HandlerError) : (failWith e : Step α).res = Res.fail e := rfl

@[simp] theorem trace_goPanic : (goPanic : Step α).trace = [] := rfl

@[simp] theorem res_goPanic : (goPanic : Step α).res = Res.panic := rfl

@[simp] theorem trace_orInternal (msg : String) (x : Except String α) :
    (orInternal msg x).trace = [] := by
  cases x <;> rfl

@[simp] theorem trace_orBadRequest (msg : String) (x : Except String α) :
    (orBadRequest msg x).trace = [] := by
  cases x <;> rfl

@[simp] theorem trace_orPanic (x : Option α) : (orPanic x).trace = [] := by
  cases x <;> rfl

@[simp] theorem orInternal_val (msg : String) (x : Except String α) (a : α) :
    (orInternal msg x).res = Res.val a ↔ x = Except.ok a := by
  cases x <;> simp [orInternal]

@[simp] theorem orInternal_fail (msg : String) (x : Except String α) (e : HandlerError) :
    (orInternal msg x).res = Res.fail e ↔ ∃ err, x = Except.error err ∧
      e = internalServerError msg err := by
  cases x <;> simp [orInternal, eq_comm]

@[simp] theorem orInternal_panic (msg : String) (x : Except String α) :
    (orInternal msg x).res ≠ Res.panic := by
  cases x <;> simp [orInternal]

@[simp] theorem orBadRequest_val (msg : String) (x : Except String α) (a : α) :
    (orBadRequest msg x).res = Res.val a ↔ x = Except.ok a := by
  cases x <;> simp [orBadRequest]

@[simp] theorem orBadRequest_fail (msg : String) (x : Except String α) (e : HandlerError) :
    (orBadRequest msg x).res = Res.fail e ↔ ∃ err, x = Except.error err ∧
      e = badRequest msg err := by
  cases x <;> simp [orBadRequest, eq_comm]

@[simp] theorem orBadRequest_panic (msg : String) (x : Except String α) :
    (orBadRequest msg x).res ≠ Res.panic := by
  cases x <;> simp [orBadRequest]

@[simp] theorem orPanic_val (x : Option α) (a : α) :
    (orPanic x).res = Res.val a ↔ x = some a := by
  cases x <;> simp [orPanic]

@[simp] theorem orPanic_fail (x : Option α) (e : HandlerError) :
    (orPanic x).res ≠ Res.fail e := by
  cases x <;> simp [orPanic]

@[simp] theorem orPanic_panic (x : Option α) :
    (orPanic x).res = Res.panic ↔ x = none := by
  cases x <;> simp [orPanic]

/-- An external call of a sequence is one of its first part, or one of the
rest after the first part ended with a value. -/
@[simp] theorem mem_trace_bind (s : Step α) (f : α → Step β) (ev : Event) :
    ev ∈ (s >>= f).trace ↔ ev ∈ s.trace ∨ ∃ a, s.res = Res.val a ∧ ev ∈ (f a).trace := by
  show ev ∈ (andThen s f).trace ↔ _
  unfold andThen
  cases h : s.res <;> simp

/-- A sequence ends with a value when both parts do. -/
@[simp] theorem bind_val (s : Step α) (f : α → Step β) (b : β) :
    (s >>= f).res = Res.val b ↔ ∃ a, s.res = Res.val a ∧ (f a).res = Res.val b := by
  show (andThen s f).res = _ ↔ _
  unfold andThen
  cases h : s.res <;> simp

/-- A sequence returns the error of its first failing part. -/
@[simp] theorem bind_fail (s : Step α) (f : α → Step β) (e : HandlerError) :
    (s >>= f).res = Res.fail e ↔
      s.res = Res.fail e ∨ ∃ a, s.res = Res.val a ∧ (f a).res = Res.fail e := by
  show (andThen s f).res = _ ↔ _
  unfold andThen
  cases h : s.res <;> simp

/-- A sequence panics where its first panicking part does. -/
@[simp] theorem bind_panic (s : Step α) (f : α → Step β) :
    (s >>= f).res = Res.panic ↔
      s.res = Res.panic ∨ ∃ a, s.res = Res.val a ∧ (f a).res = Res.panic := by
  show (andThen s f).res = _ ↔ _
  unfold andThen
  cases h : s.res <;> simp

/-- The trace of a sequence whose first part ends with a value. -/
theorem trace_bind_of_val (s : Step α) (f : α → Step β) (a : α) (h : s.res = Res.val a) :
    (s >>= f).trace = s.trace ++ (f a).trace := by
  show (andThen s f).trace = _
  unfold andThen
  simp [h]

/-- The trace of a sequence whose first part does not end with a value. -/
theorem trace_bind_of_not_val (s : Step α) (f : α → Step β) (h : ∀ a, s.res ≠ Res.val a) :
    (s >>= f).trace = s.trace := by
  show (andThen s f).trace = _
  unfold andThen
  cases h2 : s.res <;> simp_all

end Step

/-! ## Go maps: reads after writes -/

namespace GoMap

variable {V : Type}

theorem lookupEntries_eq_none (es : List (String × V)) (key : String) :
    lookupEntries es key = none ↔ key ∉ es.map Prod.fst := by
  induction es with
  | nil => simp [lookupEntries]
  | cons hd tl ih =>
    obtain ⟨k, v⟩ := hd
    by_cases h : k = key
    · simp [lookupEntries, h]
    · simp [lookupEntries, h, ih, Ne.symm h]

theorem lookup_eq_none (m : GoMap V) (key : String) :
    m.lookup key = none ↔ key ∉ m.keys :=
  lookupEntries_eq_none m.entries key

theorem lookupEntries_setEntries_same (es : List (String × V)) (key : String) (v : V) :
    lookupEntries (setEntries es key v) key = some v := by
  induction es with
  | nil => simp [setEntries, lookupEntries]
  | cons hd tl ih =>
    obtain ⟨k, x⟩ := hd
    by_cases h : k = key
    · simp [setEntries, lookupEntries, h]
    · simp [setEntries, lookupEntries, h, ih]

theorem lookupEntries_setEntries_ne (es : List (String × V)) (key other : String) (v : V)
    (hne : other ≠ key) :
    lookupEntries (setEntries es key v) other = lookupEntries es other := by
  induction es with
  | nil => simp [setEntries, lookupEntries, Ne.symm hne]
  | cons hd tl ih =>
    obtain ⟨k, x⟩ := hd
    by_cases h : k = key
    · subst h
      simp [setEntries, lookupEntries, Ne.symm hne]
    · by_cases h2 : k = other
      · subst h2
        simp [setEntries, lookupEntries, h]
      · simp [setEntries, lookupEntries, h, h2, ih]

theorem keys_setEntries (es : List (String × V)) (key : String) (v : V) :
    (setEntries es key v).map Prod.fst =
      if key ∈ es.map Prod.fst then es.map Prod.fst else es.map Prod.fst ++ [key] := by
  induction es with
  | nil => simp [setEntries]
  | cons hd tl ih =>
    obtain ⟨k, x⟩ := hd
    by_cases h : k = key
    · simp [setEntries, h]
    · have h2 : ¬ key = k := fun e => h e.symm
      by_cases h3 : key ∈ tl.map Prod.fst
      · simp only [setEntries, h, if_false, List.map_cons, ih, h3, if_true, List.mem_cons,
          or_true]
      · simp only [setEntries, h, if_false, List.map_cons, ih, h3, List.mem_cons, h2,
          or_self, List.cons_append]

theorem setEntries_setEntries_same (es : List (String × V)) (key : String) (v v2 : V) :
    setEntries (setEntries es key v) key v2 = setEntries es key v2 := by
  induction es with
  | nil => simp [setEntries]
  | cons hd tl ih =>
    obtain ⟨k, x⟩ := hd
    by_cases h : k = key
    · simp [setEntries, h]
    · simp [setEntries, h, ih]

theorem setEntries_of_lookupEntries (es : List (String × V)) (key : String) (v : V)
    (h : lookupEntries es key = some v) : setEntries es key v = es := by
  induction es with
  | nil => simp [lookupEntries] at h
  | cons hd tl ih =>
    obtain ⟨k, x⟩ := hd
    by_cases hk : k = key
    · simp [lookupEntries, hk] at h
      simp [setEntries, hk, h]
    · simp [lookupEntries, hk] at h
      simp [setEntries, hk, ih h]

theorem lookupEntries_of_mem (es : List (String × V)) (key : String) (v : V)
    (hnd : (es.map Prod.fst).Nodup) (hmem : (key, v) ∈ es) :
    lookupEntries es key = some v := by
  induction es with
  | nil => simp at hmem
  | cons hd tl ih =>
    obtain ⟨k, x⟩ := hd
    simp only [List.map_cons, List.nodup_cons] at hnd
    rcases List.mem_cons.1 hmem with heq | htl
    · cases heq
      simp [lookupEntries]
    · have hne : k ≠ key := by
        intro e
        subst e
        exact hnd.1 (List.mem_map.2 ⟨(k, v), htl, rfl⟩)
      simp [lookupEntries, hne, ih hnd.2 htl]

theorem lookup_put_same (m : GoMap V) (key : String) (v : V) :
    (m.put key v).lookup key = some v :=
  lookupEntries_setEntries_same m.entries key v

theorem lookup_put_ne (m : GoMap V) (key other : String) (v : V) (hne : other ≠ key) :
    (m.put key v).lookup other = m.lookup other :=
  lookupEntries_setEntries_ne m.entries key other v hne

theorem read_put_same [Inhabited V] (m : GoMap V) (key : String) (v : V) :
    (m.put key v).read key = v := by
  simp [read, lookup_put_same]

end GoMap

/-! ## The pieces: which calls they make and how they can fail -/

@[simp] theorem validateInputs_trace (inputs : List ConfidentialTemplateInput)
    (reqInputs : GoMap String) : (validateInputs inputs reqInputs).trace = [] := by
  induction inputs with
  | nil => rfl
  | cons val rest ih =>
    unfold validateInputs
    cases h : reqInputs.lookup val.Label <;> simp [ih]

theorem validateInputs_res (inputs : List ConfidentialTemplateInput) (reqInputs : GoMap String) :
    (validateInputs inputs reqInputs).res =
      if ∃ val ∈ inputs, val.Label ∉ reqInputs.keys then
        Res.fail (badRequest "request body malefomred" "values missing.")
      else Res.val () := by
  induction inputs with
  | nil => simp [validateInputs]
  | cons val rest ih =>
    unfold validateInputs
    cases h : reqInputs.lookup val.Label with
    | none =>
      have := (GoMap.lookup_eq_none reqInputs val.Label).1 h
      simp [this]
    | some x =>
      have : ¬ val.Label ∉ reqInputs.keys := by
        rw [← GoMap.lookup_eq_none, h]; simp
      simp only [ih, List.mem_cons, exists_eq_or_imp, this, false_or]

theorem inspectImage_stage (w : World) (params : ConfTempDeployParams)
    (template : ConfidentialTemplate) (ev : Event)
    (h : ev ∈ (inspectImage w params template).trace) : ev.stage = 1 := by
  simp [inspectImage, extractIdentity] at h
  aesop

theorem inspectImage_fail (w : World) (params : ConfTempDeployParams)
    (template : ConfidentialTemplate) (e : HandlerError)
    (h : (inspectImage w params template).res = Res.fail e) : e.StatusCode = 500 := by
  simp [inspectImage, extractIdentity] at h
  aesop

theorem manifestLifecycle_stage (w : World) (manifest : CoordinatorManifest)
    (cd : CoordinatorDeployment) (ev : Event)
    (h : ev ∈ (manifestLifecycle w manifest cd).trace) : ev.stage = 2 := by
  unfold manifestLifecycle at h
  split at h <;> simp at h
  aesop

theorem manifestLifecycle_fail (w : World) (manifest : CoordinatorManifest)
    (cd : CoordinatorDeployment) (e : HandlerError)
    (h : (manifestLifecycle w manifest cd).res = Res.fail e) : e.StatusCode = 500 := by
  unfold manifestLifecycle at h
  split at h <;> simp at h
  aesop

theorem manifestLifecycle_panic (w : World) (manifest : CoordinatorManifest)
    (cd : CoordinatorDeployment) : (manifestLifecycle w manifest cd).res ≠ Res.panic := by
  intro h
  unfold manifestLifecycle at h
  split at h <;> simp at h

theorem prepareManifest_stage (w : World) (params : ConfTempDeployParams)
    (template : ConfidentialTemplate) (mrenclave mrsigner : String) (ev : Event)
    (h : ev ∈ (prepareManifest w params template mrenclave mrsigner).trace) : ev.stage = 2 := by
  simp [prepareManifest] at h
  rcases h with h | ⟨_, h | ⟨_, _, h⟩⟩
  · subst h; rfl
  · subst h; rfl
  · exact manifestLifecycle_stage _ _ _ _ h

theorem prepareManifest_fail (w : World) (params : ConfTempDeployParams)
    (template : ConfidentialTemplate) (mrenclave mrsigner : String) (e : HandlerError)
    (h : (prepareManifest w params template mrenclave mrsigner).res = Res.fail e) :
    e.StatusCode = 500 := by
  simp [prepareManifest] at h
  rcases h with ⟨_, _, h⟩ | ⟨_, ⟨_, _, h⟩ | ⟨_, _, h⟩⟩
  · subst h; rfl
  · subst h; rfl
  · exact manifestLifecycle_fail _ _ _ _ h

theorem prepareManifest_panic (w : World) (params : ConfTempDeployParams)
    (template : ConfidentialTemplate) (mrenclave mrsigner : String) :
    (prepareManifest w params template mrenclave mrsigner).res ≠ Res.panic := by
  intro h
  simp [prepareManifest] at h
  rcases h with ⟨_, _, _, h⟩
  exact manifestLifecycle_panic _ _ _ h

theorem submitManifest_stage (w : World) (endpoint : Endpoint) (path : String)
    (manifest : CoordinatorManifest) (ev : Event)
    (h : ev ∈ (submitManifest w endpoint path manifest).trace) : ev.stage = 3 := by
  simp [submitManifest] at h
  aesop

theorem submitManifest_fail (w : World) (endpoint : Endpoint) (path : String)
    (manifest : CoordinatorManifest) (e : HandlerError)
    (h : (submitManifest w endpoint path manifest).res = Res.fail e) : e.StatusCode = 500 := by
  simp [submitManifest] at h
  aesop

theorem submitManifest_panic (w : World) (endpoint : Endpoint) (path : String)
    (manifest : CoordinatorManifest) :
    (submitManifest w endpoint path manifest).res ≠ Res.panic := by
  intro h
  simp [submitManifest] at h

theorem resolveSecrets_stage (w : World) (template : ConfidentialTemplate)
    (reqInputs : GoMap String) (es : List (String × String)) (rs : GoMap (GoMap String))
    (ev : Event) (h : ev ∈ (resolveSecrets w template reqInputs es rs).trace) :
    ev.stage = 4 := by
  induction es generalizing rs with
  | nil => simp [resolveSecrets] at h
  | cons hd tl ih =>
    obtain ⟨k, v⟩ := hd
    simp only [resolveSecrets] at h
    split at h
    · simp at h
      rcases h with h | ⟨_, _, _, _, _, h⟩
      · subst h; rfl
      · exact ih _ h
    · exact ih _ h

theorem resolveSecrets_fail (w : World) (template : ConfidentialTemplate)
    (reqInputs : GoMap String) (es : List (String × String)) (rs : GoMap (GoMap String))
    (e : HandlerError) (h : (resolveSecrets w template reqInputs es rs).res = Res.fail e) :
    e.StatusCode = 500 := by
  induction es generalizing rs with
  | nil => simp [resolveSecrets] at h
  | cons hd tl ih =>
    obtain ⟨k, v⟩ := hd
    simp only [resolveSecrets] at h
    split at h
    · simp at h
      rcases h with ⟨_, _, h⟩ | ⟨_, _, h⟩
      · subst h; rfl
      · rcases h with ⟨_, _, h⟩ | ⟨_, h⟩
        · subst h; rfl
        · rcases h with ⟨_, _, h⟩ | ⟨_, _, h⟩
          · subst h; rfl
          · exact ih _ h
    · exact ih _ h

theorem resolveSecrets_panic (w : World) (template : ConfidentialTemplate)
    (reqInputs : GoMap String) (es : List (String × String)) (rs : GoMap (GoMap String)) :
    (resolveSecrets w template reqInputs es rs).res ≠ Res.panic := by
  induction es generalizing rs with
  | nil => simp [resolveSecrets]
  | cons hd tl ih =>
    obtain ⟨k, v⟩ := hd
    simp only [resolveSecrets]
    split
    · simp
      intro _ _ _ _ _ _
      exact ih _
    · exact ih _

theorem mountVolumes_stage (w : World) (reqInputs : GoMap String)
    (inputs : List ConfidentialTemplateInput) (acc : GoMap (GoMap String) × List Mount)
    (ev : Event) (h : ev ∈ (mountVolumes w reqInputs inputs acc).trace) : ev.stage = 4 := by
  induction inputs generalizing acc with
  | nil => simp [mountVolumes] at h
  | cons val rest ih =>
    obtain ⟨rs, mounts⟩ := acc
    simp only [mountVolumes] at h
    split at h
    · simp at h
      rcases h with h | ⟨_, _, _, _, _, _, h | ⟨_, _, h⟩⟩
      · subst h; rfl
      · subst h; rfl
      · exact ih _ h
    · exact ih _ h

theorem mountVolumes_fail (w : World) (reqInputs : GoMap String)
    (inputs : List ConfidentialTemplateInput) (acc : GoMap (GoMap String) × List Mount)
    (e : HandlerError) (h : (mountVolumes w reqInputs inputs acc).res = Res.fail e) :
    e.StatusCode = 500 := by
  induction inputs generalizing acc with
  | nil => simp [mountVolumes] at h
  | cons val rest ih =>
    obtain ⟨rs, mounts⟩ := acc
    simp only [mountVolumes] at h
    split at h
    · simp at h
      rcases h with ⟨_, _, h⟩ | ⟨_, _, _, _, _, _, _, _, h⟩
      · subst h; rfl
      · exact ih _ h
    · exact ih _ h

theorem submitSecrets_stage (w : World) (params : ConfTempDeployParams)
    (template : ConfidentialTemplate) (ev : Event)
    (h : ev ∈ (submitSecrets w params template).trace) : ev.stage = 4 := by
  simp [submitSecrets] at h
  rcases h with h | ⟨_, _, h | ⟨_, _, h⟩⟩
  · exact resolveSecrets_stage _ _ _ _ _ _ h
  · exact mountVolumes_stage _ _ _ _ _ h
  · subst h; rfl

theorem submitSecrets_fail (w : World) (params : ConfTempDeployParams)
    (template : ConfidentialTemplate) (e : HandlerError)
    (h : (submitSecrets w params template).res = Res.fail e) : e.StatusCode = 500 := by
  simp [submitSecrets] at h
  rcases h with h | ⟨_, _, h | ⟨_, _, _, _, h⟩⟩
  · exact resolveSecrets_fail _ _ _ _ _ _ h
  · exact mountVolumes_fail _ _ _ _ _ h
  · subst h; rfl

theorem writeBack_stage (w : World) (params : ConfTempDeployParams)
    (manifest : CoordinatorManifest) (cd : CoordinatorDeployment) (ev : Event)
    (h : ev ∈ (writeBack w params manifest cd).trace) : ev.stage = 5 := by
  simp [writeBack] at h
  rcases h with ⟨_, _, h⟩
  subst h; rfl

theorem writeBack_fail (w : World) (params : ConfTempDeployParams)
    (manifest : CoordinatorManifest) (cd : CoordinatorDeployment) (e : HandlerError)
    (h : (writeBack w params manifest cd).res = Res.fail e) :
    e.StatusCode = 500 ∧ e.Message = "Could not update manifest in DB" := by
  simp [writeBack] at h
  rcases h with ⟨_, _, _, _, h⟩
  subst h
  exact ⟨rfl, rfl⟩

@[simp] theorem portMapping_trace (w : World) (reqInputs : GoMap String)
    (inputs : List ConfidentialTemplateInput) (acc : GoMap Unit × GoMap (List PortBinding)) :
    (portMapping w reqInputs inputs acc).trace = [] := by
  induction inputs generalizing acc with
  | nil => simp [portMapping]
  | cons val rest ih =>
    obtain ⟨exposed, binding⟩ := acc
    simp only [portMapping]
    split
    · apply List.eq_nil_iff_forall_not_mem.2
      intro ev
      simp [ih]
    · exact ih _

theorem portMapping_fail (w : World) (reqInputs : GoMap String)
    (inputs : List ConfidentialTemplateInput) (acc : GoMap Unit × GoMap (List PortBinding))
    (e : HandlerError) (h : (portMapping w reqInputs inputs acc).res = Res.fail e) :
    e.StatusCode = 500 ∧ e.Message = "unable to create port" := by
  induction inputs generalizing acc with
  | nil => simp [portMapping] at h
  | cons val rest ih =>
    obtain ⟨exposed, binding⟩ := acc
    simp only [portMapping] at h
    split at h
    · simp at h
      rcases h with ⟨_, _, h⟩ | ⟨_, _, h⟩
      · subst h
        exact ⟨rfl, rfl⟩
      · exact ih _ h
    · exact ih _ h

theorem portMapping_panic (w : World) (reqInputs : GoMap String)
    (inputs : List ConfidentialTemplateInput) (acc : GoMap Unit × GoMap (List PortBinding)) :
    (portMapping w reqInputs inputs acc).res ≠ Res.panic := by
  induction inputs generalizing acc with
  | nil => simp [portMapping]
  | cons val rest ih =>
    obtain ⟨exposed, binding⟩ := acc
    simp only [portMapping]
    split
    · intro h
      simp at h
      rcases h with ⟨_, _, h⟩
      exact ih _ h
    · exact ih _

/-- The messages of the errors returned after the write-back has been tried. -/
theorem deployContainer_fail (w : World) (params : ConfTempDeployParams)
    (template : ConfidentialTemplate) (mounts : List Mount) (e : HandlerError)
    (h : (deployContainer w params template mounts).res = Res.fail e) :
    e.StatusCode = 500 ∧ e.Message ∈ ["unable to create port", "unable to create container",
      "could not connect container to coordinator network", "Could not start container",
      "could not remove container from bridge network"] := by
  simp [deployContainer] at h
  rcases h with h | ⟨_, _, _, h⟩
  · have := portMapping_fail _ _ _ _ _ h
    simp [this.1, this.2]
  · rcases h with ⟨_, _, h⟩ | ⟨_, _, ⟨_, _, h⟩ | ⟨_, ⟨_, _, h⟩ | ⟨_, _, _, h⟩⟩⟩ <;>
      subst h <;> simp [internalServerError]

theorem deployContainer_panic (w : World) (params : ConfTempDeployParams)
    (template : ConfidentialTemplate) (mounts : List Mount) :
    (deployContainer w params template mounts).res ≠ Res.panic := by
  intro h
  simp [deployContainer] at h
  exact portMapping_panic _ _ _ _ h

theorem deployContainer_stage (w : World) (params : ConfTempDeployParams)
    (template : ConfidentialTemplate) (mounts : List Mount) (ev : Event)
    (h : ev ∈ (deployContainer w params template mounts).trace) : ev.stage = 6 := by
  simp [deployContainer] at h
  aesop

theorem commitDeployment_stage (w : World) (params : ConfTempDeployParams)
    (template : ConfidentialTemplate) (ev : Event)
    (h : ev ∈ (commitDeployment w params template).trace) : 1 ≤ ev.stage ∧ ev.stage ≤ 5 := by
  simp [commitDeployment] at h
  rcases h with h | ⟨_, _, _, _, h | ⟨_, _, _, _, h | ⟨_, h | ⟨_, h⟩⟩⟩⟩
  · have := inspectImage_stage _ _ _ _ h
    omega
  · have := prepareManifest_stage _ _ _ _ _ _ h
    omega
  · have := submitManifest_stage _ _ _ _ _ h
    omega
  · have := submitSecrets_stage _ _ _ _ h
    omega
  · have := writeBack_stage _ _ _ _ _ h
    omega

theorem commitDeployment_fail (w : World) (params : ConfTempDeployParams)
    (template : ConfidentialTemplate) (e : HandlerError)
    (h : (commitDeployment w params template).res = Res.fail e) : e.StatusCode = 500 := by
  simp [commitDeployment] at h
  rcases h with h | ⟨_, _, _, _, h | ⟨_, _, _, _, h | ⟨_, h | ⟨_, h⟩⟩⟩⟩
  · exact inspectImage_fail _ _ _ _ h
  · exact prepareManifest_fail _ _ _ _ _ _ h
  · exact submitManifest_fail _ _ _ _ _ h
  · exact submitSecrets_fail _ _ _ _ h
  · exact (writeBack_fail _ _ _ _ _ h).1

/-! ## C1: input validation -/

theorem Step.pure_andThen {α β : Type} (a : α) (f : α → Step β) :
    (pure a >>= f) = f a := by
  show Step.andThen _ f = f a
  simp [Step.andThen, pure]

theorem Step.call_andThen {β : Type} (ev : Event) (f : Unit → Step β) :
    (Step.call ev >>= f) = ⟨ev :: (f ()).trace, (f ()).res⟩ := by
  show Step.andThen _ f = _
  simp [Step.andThen, Step.call]

theorem readRequest_eq (w : World) (params : ConfTempDeployParams)
    (template : ConfidentialTemplate) (hd : w.decodeBody = Except.ok params)
    (ht : w.confidentialTemplate params.Id = Except.ok template) :
    readRequest w = ⟨[Event.templateLookup params.Id],
      if ∃ val ∈ template.Inputs, val.Label ∉ params.Inputs.keys then
        Res.fail (badRequest "request body malefomred" "values missing.")
      else Res.val (params, template)⟩ := by
  unfold readRequest
  rw [hd]
  simp only [orBadRequest, Step.pure_andThen, Step.call_andThen, ht]
  by_cases hm : ∃ val ∈ template.Inputs, val.Label ∉ params.Inputs.keys
  · rw [if_pos hm, trace_bind_of_not_val]
    · simp
      have := validateInputs_res template.Inputs params.Inputs
      rw [if_pos hm] at this
      simp [this]
    · intro a
      rw [validateInputs_res, if_pos hm]
      simp
  · have hv := validateInputs_res template.Inputs params.Inputs
    rw [if_neg hm] at hv
    rw [if_neg hm, trace_bind_of_val _ _ () hv]
    simp [hv]

theorem readRequest_trace (w : World) (params : ConfTempDeployParams)
    (template : ConfidentialTemplate) (hd : w.decodeBody = Except.ok params)
    (ht : w.confidentialTemplate params.Id = Except.ok template) :
    (readRequest w).trace = [Event.templateLookup params.Id] := by
  rw [readRequest_eq w params template hd ht]

theorem readRequest_res (w : World) (params : ConfTempDeployParams)
    (template : ConfidentialTemplate) (hd : w.decodeBody = Except.ok params)
    (ht : w.confidentialTemplate params.Id = Except.ok template) :
    (readRequest w).res =
      if ∃ val ∈ template.Inputs, val.Label ∉ params.Inputs.keys then
        Res.fail (badRequest "request body malefomred" "values missing.")
      else Res.val (params, template) := by
  rw [readRequest_eq w params template hd ht]

/-- C1: for a decoded request and a loaded template, the validation step, and
with it the handler, returns the bad-request error "values missing." exactly
when some declared input has a label that is no key of the request map; in
that case the only external call of the run is the template lookup, so no
container-runtime call and no coordinator POST has been made. -/
theorem validation_rejects_exactly_missing_labels (w : World) (params : ConfTempDeployParams)
    (template : ConfidentialTemplate) (hd : w.decodeBody = Except.ok params)
    (ht : w.confidentialTemplate params.Id = Except.ok template) :
    ((validateInputs template.Inputs params.Inputs).res =
        Res.fail (badRequest "request body malefomred" "values missing.") ↔
      ∃ val ∈ template.Inputs, val.Label ∉ params.Inputs.keys) ∧
    ((deployConfidentialTemplate w).res =
        Res.fail (badRequest "request body malefomred" "values missing.") ↔
      ∃ val ∈ template.Inputs, val.Label ∉ params.Inputs.keys) ∧
    ((∃ val ∈ template.Inputs, val.Label ∉ params.Inputs.keys) →
      (deployConfidentialTemplate w).trace = [Event.templateLookup params.Id] ∧
      ∀ ev ∈ (deployConfidentialTemplate w).trace, ev.isNetworkCall = false) := by
  have hres := readRequest_res w params template hd ht
  have htr := readRequest_trace w params template hd ht
  refine ⟨?_, ?_, ?_⟩
  · rw [validateInputs_res]
    by_cases hm : ∃ val ∈ template.Inputs, val.Label ∉ params.Inputs.keys <;> simp [hm]
  · constructor
    · intro h
      by_contra hm
      rw [if_neg hm] at hres
      simp only [deployConfidentialTemplate, bind_fail, hres] at h
      rcases h with h | ⟨a, ha, h⟩
      · simp at h
      · rcases h with h | ⟨_, _, h⟩
        · have := commitDeployment_fail _ _ _ _ h
          simp [badRequest] at this
        · have := (deployContainer_fail _ _ _ _ _ h).1
          simp [badRequest] at this
    · intro hm
      rw [if_pos hm] at hres
      simp [deployConfidentialTemplate, hres]
  · intro hm
    rw [if_pos hm] at hres
    have : (deployConfidentialTemplate w).trace = [Event.templateLookup params.Id] := by
      unfold deployConfidentialTemplate
      rw [trace_bind_of_not_val _ _ (by simp [hres]), htr]
    rw [this]
    simp [Event.isNetworkCall]

/-! ## C2: literal secrets -/

theorem getKey_setKey (rs : GoMap (GoMap String)) (k x : String) :
    getKey (setKey rs k x) k = x := by
  simp [getKey, setKey, GoMap.read_put_same]

theorem keyOf_setKey (rs : GoMap (GoMap String)) (k x : String) :
    keyOf (setKey rs k x) k = some x := by
  simp [keyOf, setKey, GoMap.lookup_put_same]

theorem keyOf_setKey_ne (rs : GoMap (GoMap String)) (k other x : String) (hne : other ≠ k) :
    keyOf (setKey rs k x) other = keyOf rs other := by
  simp [keyOf, setKey, GoMap.lookup_put_ne _ _ _ _ hne]

theorem keyOf_put_ne (rs : GoMap (GoMap String)) (k other : String) (inner : GoMap String)
    (hne : other ≠ k) : keyOf (rs.put k inner) other = keyOf rs other := by
  simp [keyOf, GoMap.lookup_put_ne _ _ _ _ hne]

theorem keyOf_substituteInputs_ne (inputs : List ConfidentialTemplateInput)
    (reqInputs : GoMap String) (k other : String) (rs : GoMap (GoMap String))
    (hne : other ≠ k) :
    keyOf (substituteInputs inputs reqInputs k rs) other = keyOf rs other := by
  induction inputs generalizing rs with
  | nil => rfl
  | cons val rest ih =>
    simp only [substituteInputs, List.foldl_cons] at ih ⊢
    split
    · rw [ih, keyOf_setKey_ne _ _ _ _ hne]
    · exact ih _

/-- The loop of lines 303-307 applies the replacements of the SECRET inputs
bound to `k`, in order, to the current value. -/
theorem getKey_substituteInputs (inputs : List ConfidentialTemplateInput)
    (reqInputs : GoMap String) (k : String) (rs : GoMap (GoMap String)) :
    getKey (substituteInputs inputs reqInputs k rs) k =
      (inputs.filter fun val => val.Type_ = "SECRET" ∧ val.SecretName = k).foldl
        (fun text val => stringsReplace text val.ReplacePattern (reqInputs.read val.Label))
        (getKey rs k) := by
  induction inputs generalizing rs with
  | nil => rfl
  | cons val rest ih =>
    simp only [substituteInputs, List.foldl_cons] at ih ⊢
    by_cases hc : val.Type_ = "SECRET" ∧ val.SecretName = k
    · rw [if_pos hc, ih, getKey_setKey, List.filter_cons_of_pos (by simpa using hc)]
      rfl
    · rw [if_neg hc, ih, List.filter_cons_of_neg (by simpa using hc)]

theorem resolveSecrets_keyOf_frame (w : World) (template : ConfidentialTemplate)
    (reqInputs : GoMap String) (es : List (String × String)) (rs result : GoMap (GoMap String))
    (k : String) (hk : k ∉ es.map Prod.fst)
    (h : (resolveSecrets w template reqInputs es rs).res = Res.val result) :
    keyOf result k = keyOf rs k := by
  induction es generalizing rs with
  | nil =>
    simp [resolveSecrets] at h
    rw [h]
  | cons hd tl ih =>
    obtain ⟨k2, v2⟩ := hd
    simp only [List.map_cons, List.mem_cons, not_or] at hk
    simp only [resolveSecrets] at h
    split at h
    · simp at h
      rcases h with ⟨_, _, _, _, _, h⟩
      rw [ih _ hk.2 h, keyOf_setKey_ne _ _ _ _ hk.1, keyOf_put_ne _ _ _ _ hk.1]
    · rw [ih _ hk.2 h, keyOf_setKey_ne _ _ _ _ hk.1, keyOf_substituteInputs_ne _ _ _ _ _ hk.1,
        keyOf_setKey_ne _ _ _ _ hk.1, keyOf_put_ne _ _ _ _ hk.1]

theorem resolveSecrets_literal (w : World) (template : ConfidentialTemplate)
    (reqInputs : GoMap String) (es : List (String × String)) (rs result : GoMap (GoMap String))
    (k v : String) (hnd : (es.map Prod.fst).Nodup) (hmem : (k, v) ∈ es)
    (hv : v ≠ "RANDOM_KEY") (hread : template.Secrets.read k = v)
    (h : (resolveSecrets w template reqInputs es rs).res = Res.val result) :
    keyOf result k = some (specLiteralSecret template.Inputs reqInputs k v) := by
  induction es generalizing rs with
  | nil => simp at hmem
  | cons hd tl ih =>
    obtain ⟨k2, v2⟩ := hd
    simp only [List.map_cons, List.nodup_cons] at hnd
    rcases List.mem_cons.1 hmem with heq | htl
    · cases heq
      simp only [resolveSecrets, if_neg hv] at h
      rw [resolveSecrets_keyOf_frame _ _ _ _ _ _ _ hnd.1 h, keyOf_setKey,
        getKey_substituteInputs, getKey_setKey, hread]
      rfl
    · have hne : k ≠ k2 := by
        intro e
        subst e
        exact hnd.1 (List.mem_map.2 ⟨(k, v), htl, rfl⟩)
      simp only [resolveSecrets] at h
      split at h
      · simp at h
        rcases h with ⟨_, _, _, _, _, h⟩
        exact ih _ hnd.2 htl h
      · exact ih _ hnd.2 htl h

theorem resolveSecrets_returns (w : World) (template : ConfidentialTemplate)
    (reqInputs : GoMap String) (es : List (String × String)) (rs : GoMap (GoMap String))
    (hgen : ∀ entry ∈ es, entry.2 = "RANDOM_KEY" → w.fileKeyAvailable entry.1) :
    ∃ result, (resolveSecrets w template reqInputs es rs).res = Res.val result := by
  induction es generalizing rs with
  | nil => exact ⟨rs, rfl⟩
  | cons hd tl ih =>
    obtain ⟨k2, v2⟩ := hd
    have htl : ∀ entry ∈ tl, entry.2 = "RANDOM_KEY" → w.fileKeyAvailable entry.1 :=
      fun entry he => hgen entry (List.mem_cons_of_mem _ he)
    simp only [resolveSecrets]
    split
    · rename_i hr
      obtain ⟨file, bytes, h1, h2, h3⟩ := hgen (k2, v2) (List.mem_cons_self _ _) hr
      obtain ⟨result, hres⟩ := ih
        (setKey (rs.put k2 GoMap.empty) k2 (base64EncodeToString bytes)) htl
      exact ⟨result, by simp [h1, h2, h3, hres]⟩
    · exact ih _ htl

/-- C2: for a template secret `k` whose template string `v` is not the
sentinel "RANDOM_KEY", the value the literal-secret loop leaves under
`replacedStrings[k]["Key"]` is the base64 encoding of `v` after the
replacements of exactly the SECRET inputs bound to `k` (inputs of another type
or another secret name are filtered out); and the loop does return a payload
whenever the key generation of every RANDOM_KEY secret succeeds. -/
theorem literal_secret_is_base64_of_substitution (w : World) (template : ConfidentialTemplate)
    (reqInputs : GoMap String) (k v : String) (hwf : template.Secrets.WF)
    (hmem : (k, v) ∈ template.Secrets.entries) (hv : v ≠ "RANDOM_KEY") :
    (∀ result,
      (resolveSecrets w template reqInputs template.Secrets.entries GoMap.empty).res =
          Res.val result →
        keyOf result k = some (specLiteralSecret template.Inputs reqInputs k v)) ∧
    ((∀ entry ∈ template.Secrets.entries, entry.2 = "RANDOM_KEY" →
        w.fileKeyAvailable entry.1) →
      ∃ result,
        (resolveSecrets w template reqInputs template.Secrets.entries GoMap.empty).res =
          Res.val result) := by
  refine ⟨fun result h => ?_, fun hgen => resolveSecrets_returns _ _ _ _ _ hgen⟩
  have hread : template.Secrets.read k = v := by
    simp [GoMap.read, GoMap.lookup, GoMap.lookupEntries_of_mem _ _ _ hwf hmem]
  exact resolveSecrets_literal _ _ _ _ _ _ _ _ hwf hmem hv hread h

/-! ## C6: the merge of a fragment -/

theorem GoMap.write_eq_some {V : Type} (m r : GoMap V) (key : String) (v : V)
    (h : m.write key v = some r) :
    ∃ es, m = GoMap.mk es ∧ r = GoMap.mk (GoMap.setEntries es key v) := by
  cases m with
  | nil => simp [GoMap.write] at h
  | mk es =>
    simp [GoMap.write] at h
    exact ⟨es, rfl, h.symm⟩

theorem GoMap.lookup_write_same {V : Type} (m r : GoMap V) (key : String) (v : V)
    (h : m.write key v = some r) : r.lookup key = some v := by
  obtain ⟨es, _, rfl⟩ := GoMap.write_eq_some m r key v h
  exact GoMap.lookupEntries_setEntries_same es key v

theorem GoMap.lookup_write_ne {V : Type} (m r : GoMap V) (key other : String) (v : V)
    (hne : other ≠ key) (h : m.write key v = some r) : r.lookup other = m.lookup other := by
  obtain ⟨es, rfl, rfl⟩ := GoMap.write_eq_some m r key v h
  exact GoMap.lookupEntries_setEntries_ne es key other v hne

theorem GoMap.keys_write {V : Type} (m r : GoMap V) (key : String) (v : V)
    (h : m.write key v = some r) :
    r.keys = if key ∈ m.keys then m.keys else m.keys ++ [key] := by
  obtain ⟨es, rfl, rfl⟩ := GoMap.write_eq_some m r key v h
  exact GoMap.keys_setEntries es key v

theorem GoMap.write_of_lookup {V : Type} (m : GoMap V) (key : String) (v : V)
    (h : m.lookup key = some v) : m.write key v = some m := by
  cases m with
  | nil => simp [GoMap.lookup, GoMap.entries, GoMap.lookupEntries] at h
  | mk es =>
    simp only [GoMap.write]
    rw [GoMap.setEntries_of_lookupEntries es key v h]

theorem copySecrets_lookup_not_mem (es : List (String × Secret)) (target r : GoMap Secret)
    (key : String) (hk : key ∉ es.map Prod.fst) (h : copySecrets es target = some r) :
    r.lookup key = target.lookup key := by
  induction es generalizing target with
  | nil =>
    simp [copySecrets] at h
    rw [h]
  | cons hd tl ih =>
    obtain ⟨k, v⟩ := hd
    simp only [List.map_cons, List.mem_cons, not_or] at hk
    simp only [copySecrets] at h
    cases hw : target.write k v with
    | none => simp [hw] at h
    | some t2 =>
      rw [hw] at h
      rw [ih t2 hk.2 h, GoMap.lookup_write_ne _ _ _ _ _ hk.1 hw]

theorem copySecrets_lookup_mem (es : List (String × Secret)) (target r : GoMap Secret)
    (key : String) (v : Secret) (hnd : (es.map Prod.fst).Nodup) (hmem : (key, v) ∈ es)
    (h : copySecrets es target = some r) : r.lookup key = some v := by
  induction es generalizing target with
  | nil => simp at hmem
  | cons hd tl ih =>
    obtain ⟨k, x⟩ := hd
    simp only [List.map_cons, List.nodup_cons] at hnd
    simp only [copySecrets] at h
    cases hw : target.write k x with
    | none => simp [hw] at h
    | some t2 =>
      rw [hw] at h
      rcases List.mem_cons.1 hmem with heq | htl
      · cases heq
        rw [copySecrets_lookup_not_mem tl t2 r key hnd.1 h]
        exact GoMap.lookup_write_same _ _ _ _ hw
      · exact ih t2 hnd.2 htl h

theorem copySecrets_fixed (es : List (String × Secret)) (target : GoMap Secret)
    (h : ∀ entry ∈ es, target.lookup entry.1 = some entry.2) :
    copySecrets es target = some target := by
  induction es with
  | nil => rfl
  | cons hd tl ih =>
    obtain ⟨k, v⟩ := hd
    simp only [copySecrets]
    rw [GoMap.write_of_lookup target k v (h (k, v) (List.mem_cons_self _ _))]
    exact ih fun entry he => h entry (List.mem_cons_of_mem _ he)

theorem copySecrets_alloc (es : List (String × Secret)) (ts : List (String × Secret)) :
    ∃ rs, copySecrets es (GoMap.mk ts) = some (GoMap.mk rs) := by
  induction es generalizing ts with
  | nil => exact ⟨ts, rfl⟩
  | cons hd tl ih =>
    obtain ⟨k, v⟩ := hd
    simp only [copySecrets, GoMap.write, Option.some_bind]
    exact ih _

theorem mergeFragment_eq_some (name : String) (fragment persisted merged : CoordinatorManifest)
    (h : mergeFragment name fragment persisted = some merged) :
    persisted.Packages.write name (fragment.Packages.read name) = some merged.Packages ∧
    persisted.Marbles.write (name ++ "_marble") (fragment.Marbles.read (name ++ "_marble")) =
      some merged.Marbles ∧
    copySecrets fragment.Secrets.entries persisted.Secrets = some merged.Secrets ∧
    merged.Users = persisted.Users ∧ merged.Roles = persisted.Roles := by
  unfold mergeFragment at h
  cases hp : persisted.Packages.write name (fragment.Packages.read name) with
  | none => simp [hp] at h
  | some packages =>
    cases hm : persisted.Marbles.write (name ++ "_marble")
        (fragment.Marbles.read (name ++ "_marble")) with
    | none => simp [hp, hm] at h
    | some marbles =>
      cases hs : copySecrets fragment.Secrets.entries persisted.Secrets with
      | none => simp [hp, hm, hs] at h
      | some secrets =>
        simp [hp, hm, hs] at h
        subst h
        simp

theorem mergeFragment_of_parts (name : String) (fragment persisted : CoordinatorManifest)
    (packages : GoMap PackageProperties) (marbles : GoMap Marble) (secrets : GoMap Secret)
    (hp : persisted.Packages.write name (fragment.Packages.read name) = some packages)
    (hm : persisted.Marbles.write (name ++ "_marble")
      (fragment.Marbles.read (name ++ "_marble")) = some marbles)
    (hs : copySecrets fragment.Secrets.entries persisted.Secrets = some secrets) :
    mergeFragment name fragment persisted =
      some { persisted with Packages := packages, Marbles := marbles, Secrets := secrets } := by
  simp [mergeFragment, hp, hm, hs]

/-- C6: merging a fragment a second time changes nothing (a merge that panics
on a nil map panics both times), a merge of allocated maps does yield a
manifest, and the merge adds at most one key to Packages and to Marbles, none
when the name is already a key. -/
theorem merge_fragment_idempotent (name : String) (fragment persisted : CoordinatorManifest)
    (hwf : fragment.Secrets.WF) :
    (mergeFragment name fragment persisted).bind (mergeFragment name fragment) =
      mergeFragment name fragment persisted ∧
    (persisted.Packages.isNil = false → persisted.Marbles.isNil = false →
      persisted.Secrets.isNil = false →
      ∃ merged, mergeFragment name fragment persisted = some merged) ∧
    ∀ merged, mergeFragment name fragment persisted = some merged →
      merged.Packages.keys.length ≤ persisted.Packages.keys.length + 1 ∧
      merged.Marbles.keys.length ≤ persisted.Marbles.keys.length + 1 ∧
      (name ∈ persisted.Packages.keys → merged.Packages.keys = persisted.Packages.keys) ∧
      (name ++ "_marble" ∈ persisted.Marbles.keys →
        merged.Marbles.keys = persisted.Marbles.keys) := by
  refine ⟨?_, ?_, ?_⟩
  · cases h : mergeFragment name fragment persisted with
    | none => rfl
    | some merged =>
      obtain ⟨hp, hm, hs, _, _⟩ := mergeFragment_eq_some _ _ _ _ h
      have hp2 : merged.Packages.write name (fragment.Packages.read name) =
          some merged.Packages :=
        GoMap.write_of_lookup _ _ _ (GoMap.lookup_write_same _ _ _ _ hp)
      have hm2 : merged.Marbles.write (name ++ "_marble")
          (fragment.Marbles.read (name ++ "_marble")) = some merged.Marbles :=
        GoMap.write_of_lookup _ _ _ (GoMap.lookup_write_same _ _ _ _ hm)
      have hs2 : copySecrets fragment.Secrets.entries merged.Secrets = some merged.Secrets :=
        copySecrets_fixed _ _ fun entry he =>
          copySecrets_lookup_mem _ _ _ entry.1 entry.2 hwf he hs
      rw [Option.some_bind, mergeFragment_of_parts _ _ _ _ _ _ hp2 hm2 hs2]
  · intro h1 h2 h3
    cases hP : persisted.Packages with
    | nil => simp [hP, GoMap.isNil] at h1
    | mk ps =>
      cases hM : persisted.Marbles with
      | nil => simp [hM, GoMap.isNil] at h2
      | mk ms =>
        cases hS : persisted.Secrets with
        | nil => simp [hS, GoMap.isNil] at h3
        | mk ss =>
          obtain ⟨rs, hrs⟩ := copySecrets_alloc fragment.Secrets.entries ss
          exact ⟨_, mergeFragment_of_parts name fragment persisted _ _ _
            (by rw [hP]; rfl) (by rw [hM]; rfl) (by rw [hS]; exact hrs)⟩
  · intro merged h
    obtain ⟨hp, hm, _, _, _⟩ := mergeFragment_eq_some _ _ _ _ h
    have kp := GoMap.keys_write _ _ _ _ hp
    have km := GoMap.keys_write _ _ _ _ hm
    refine ⟨?_, ?_, ?_, ?_⟩
    · rw [kp]; split <;> simp
    · rw [km]; split <;> simp
    · intro hin; rw [kp, if_pos hin]
    · intro hin; rw [km, if_pos hin]

/-! ## The shape of a run -/

theorem Step.res_bind_of_val {α β : Type} (s : Step α) (f : α → Step β) (a : α)
    (h : s.res = Res.val a) : (s >>= f).res = (f a).res := by
  show (Step.andThen s f).res = _
  unfold Step.andThen
  simp [h]

theorem Step.res_bind_of_fail {α β : Type} (s : Step α) (f : α → Step β) (e : HandlerError)
    (h : s.res = Res.fail e) : (s >>= f).res = Res.fail e := by
  show (Step.andThen s f).res = _
  unfold Step.andThen
  simp [h]

theorem Step.res_bind_of_panic {α β : Type} (s : Step α) (f : α → Step β)
    (h : s.res = Res.panic) : (s >>= f).res = Res.panic := by
  show (Step.andThen s f).res = _
  unfold Step.andThen
  simp [h]

theorem readRequest_stage (w : World) (ev : Event) (h : ev ∈ (readRequest w).trace) :
    ev.stage = 0 := by
  simp [readRequest] at h
  aesop

theorem readRequest_val (w : World) (params : ConfTempDeployParams)
    (template : ConfidentialTemplate) (h : (readRequest w).res = Res.val (params, template)) :
    w.decodeBody = Except.ok params ∧ w.confidentialTemplate params.Id = Except.ok template := by
  simp [readRequest] at h
  aesop

theorem submitManifest_mem (w : World) (endpoint : Endpoint) (path : String)
    (manifest : CoordinatorManifest) (ev : Event)
    (h : ev ∈ (submitManifest w endpoint path manifest).trace) :
    ev = Event.coordinatorPost path (PostBody.manifest manifest) := by
  simp [submitManifest] at h
  exact h.2.2

theorem submitManifest_val (w : World) (endpoint : Endpoint) (path : String)
    (manifest : CoordinatorManifest)
    (h : (submitManifest w endpoint path manifest).res = Res.val ()) :
    ∃ status, w.post path (PostBody.manifest manifest) = Except.ok status := by
  simp [submitManifest] at h
  exact h.2.2

theorem writeBack_mem (w : World) (params : ConfTempDeployParams)
    (manifest : CoordinatorManifest) (cd : CoordinatorDeployment) (ev : Event)
    (h : ev ∈ (writeBack w params manifest cd).trace) :
    ∃ merged, mergeFragment params.Name manifest cd.Manifest = some merged ∧
      ev = Event.coordinatorDeploymentUpdate cd.ID { cd with Manifest := merged } := by
  simp [writeBack] at h
  obtain ⟨merged, hm, h⟩ := h
  exact ⟨merged, hm, h⟩

theorem writeBack_res (w : World) (params : ConfTempDeployParams)
    (manifest : CoordinatorManifest) (cd : CoordinatorDeployment) (merged : CoordinatorManifest)
    (hm : mergeFragment params.Name manifest cd.Manifest = some merged) :
    (writeBack w params manifest cd).res =
      (orInternal "Could not update manifest in DB"
        (w.update cd.ID { cd with Manifest := merged })).res := by
  unfold writeBack
  rw [hm]
  simp only [orPanic, Step.pure_andThen, Step.call_andThen]

/-- A write to the repository in the run of `commitDeployment` comes from the
write-back, after every earlier piece ended with a value. -/
theorem commitDeployment_update_inv (w : World) (params : ConfTempDeployParams)
    (template : ConfidentialTemplate) (ev : Event) (hs : ev.stage = 5)
    (h : ev ∈ (commitDeployment w params template).trace) :
    ∃ endpoint mrenclave mrsigner path manifest cd mounts merged,
      (inspectImage w params template).res = Res.val (endpoint, mrenclave, mrsigner) ∧
      (prepareManifest w params template mrenclave mrsigner).res =
        Res.val (path, manifest, cd) ∧
      (submitManifest w endpoint path manifest).res = Res.val () ∧
      (submitSecrets w params template).res = Res.val mounts ∧
      mergeFragment params.Name manifest cd.Manifest = some merged ∧
      ev = Event.coordinatorDeploymentUpdate cd.ID { cd with Manifest := merged } ∧
      (commitDeployment w params template).res =
        ((orInternal "Could not update manifest in DB"
          (w.update cd.ID { cd with Manifest := merged })) >>= fun _ => pure mounts).res := by
  have h0 := h
  simp [commitDeployment] at h
  rcases h with h | ⟨endpoint, mre, mrs, hi, h | ⟨path, m, cd, hp, h | ⟨hm, h | ⟨⟨mounts, hsec⟩, h⟩⟩⟩⟩
  · have := inspectImage_stage _ _ _ _ h
    omega
  · have := prepareManifest_stage _ _ _ _ _ _ h
    omega
  · have := submitManifest_stage _ _ _ _ _ h
    omega
  · have := submitSecrets_stage _ _ _ _ h
    omega
  · obtain ⟨merged, hmerge, hev⟩ := writeBack_mem _ _ _ _ _ h
    refine ⟨endpoint, mre, mrs, path, m, cd, mounts, merged, hi, hp, ?_, hsec, hmerge, hev, ?_⟩
    · obtain ⟨x, hx⟩ := hm
      exact hx
    · obtain ⟨x, hx⟩ := hm
      unfold commitDeployment
      rw [Step.res_bind_of_val _ _ _ hi]
      simp only []
      rw [Step.res_bind_of_val _ _ _ hp]
      simp only []
      rw [Step.res_bind_of_val _ _ _ hx, Step.res_bind_of_val _ _ _ hsec]
      cases hu : w.update cd.ID { cd with Manifest := merged } with
      | ok u =>
        have hw := writeBack_res w params m cd merged hmerge
        rw [hu] at hw
        rw [Step.res_bind_of_val _ _ () (by rw [hw]; rfl)]
        rfl
      | error err =>
        have hw := writeBack_res w params m cd merged hmerge
        rw [hu] at hw
        have : ∀ e, (orInternal "Could not update manifest in DB"
            (Except.error err : Except String Unit)).res = Res.fail e →
            (writeBack w params m cd).res = Res.fail e := fun e he => by rw [hw, he]
        simp [orInternal] at this ⊢
        rw [Step.res_bind_of_fail _ _ _ this, Step.res_bind_of_fail _ _ _ rfl]

theorem commitDeployment_post_inv (w : World) (params : ConfTempDeployParams)
    (template : ConfidentialTemplate) (ev : Event) (hs : ev.stage = 3)
    (h : ev ∈ (commitDeployment w params template).trace) :
    ∃ endpoint mrenclave mrsigner path manifest cd,
      (inspectImage w params template).res = Res.val (endpoint, mrenclave, mrsigner) ∧
      (prepareManifest w params template mrenclave mrsigner).res =
        Res.val (path, manifest, cd) ∧
      ev = Event.coordinatorPost path (PostBody.manifest manifest) ∧
      ev ∈ (submitManifest w endpoint path manifest).trace := by
  simp [commitDeployment] at h
  rcases h with h | ⟨endpoint, mre, mrs, hi, h | ⟨path, m, cd, hp, h | ⟨hm, h | ⟨⟨mounts, hsec⟩, h⟩⟩⟩⟩
  · have := inspectImage_stage _ _ _ _ h
    omega
  · have := prepareManifest_stage _ _ _ _ _ _ h
    omega
  · exact ⟨endpoint, mre, mrs, path, m, cd, hi, hp, submitManifest_mem _ _ _ _ _ h, h⟩
  · have := submitSecrets_stage _ _ _ _ h
    omega
  · have := writeBack_stage _ _ _ _ _ h
    omega

/-- A manifest POST that returns a transport error ends `commitDeployment`
with the error "error request", and nothing follows the POST. -/
theorem commitDeployment_post_error (w : World) (params : ConfTempDeployParams)
    (template : ConfidentialTemplate) (path : String) (manifest : CoordinatorManifest)
    (err : String)
    (h : Event.coordinatorPost path (PostBody.manifest manifest) ∈
      (commitDeployment w params template).trace)
    (herr : w.post path (PostBody.manifest manifest) = Except.error err) :
    (commitDeployment w params template).res =
        Res.fail (internalServerError "error request" err) ∧
      ∀ ev ∈ (commitDeployment w params template).trace, ev.stage ≤ 3 := by
  obtain ⟨endpoint, mre, mrs, path2, m2, cd, hi, hp, hev, hmem⟩ :=
    commitDeployment_post_inv w params template
      (Event.coordinatorPost path (PostBody.manifest manifest)) rfl h
  simp only [Event.coordinatorPost.injEq, PostBody.manifest.injEq] at hev
  obtain ⟨rfl, rfl⟩ := hev
  have hsub : (submitManifest w endpoint path manifest).res =
      Res.fail (internalServerError "error request" err) := by
    simp [submitManifest] at hmem
    obtain ⟨⟨_, h1⟩, ⟨_, h2⟩⟩ := hmem
    simp [submitManifest, h1, h2, herr]
  constructor
  · unfold commitDeployment
    rw [Step.res_bind_of_val _ _ _ hi]
    simp only []
    rw [Step.res_bind_of_val _ _ _ hp]
    simp only []
    rw [Step.res_bind_of_fail _ _ _ hsub]
  · intro ev hev
    simp [commitDeployment] at hev
    rcases hev with h | ⟨e2, a2, b2, hi2, h | ⟨p2, m3, c2, hp2, h | ⟨⟨x, hm⟩, _⟩⟩⟩
    · have := inspectImage_stage _ _ _ _ h
      omega
    · have := prepareManifest_stage _ _ _ _ _ _ h
      omega
    · have := submitManifest_stage _ _ _ _ _ h
      omega
    · rw [hi] at hi2
      cases hi2
      rw [hp] at hp2
      cases hp2
      rw [hsub] at hm
      cases hm

theorem submitSecrets_val (w : World) (params : ConfTempDeployParams)
    (template : ConfidentialTemplate) (mounts : List Mount)
    (h : (submitSecrets w params template).res = Res.val mounts) :
    ∃ body status, Event.coordinatorPost "secrets" body ∈ (submitSecrets w params template).trace ∧
      w.post "secrets" body = Except.ok status := by
  simp [submitSecrets] at h
  obtain ⟨rs, hr, rs2, hmv, status, hpost⟩ := h
  refine ⟨PostBody.secrets rs2, status, ?_, hpost⟩
  simp [submitSecrets]
  exact Or.inr ⟨rs, hr, Or.inr ⟨mounts, hmv⟩⟩

theorem mem_commitDeployment_of_submitSecrets (w : World) (params : ConfTempDeployParams)
    (template : ConfidentialTemplate) (ev : Event) (endpoint : Endpoint)
    (mrenclave mrsigner path : String) (manifest : CoordinatorManifest)
    (cd : CoordinatorDeployment)
    (hi : (inspectImage w params template).res = Res.val (endpoint, mrenclave, mrsigner))
    (hp : (prepareManifest w params template mrenclave mrsigner).res =
      Res.val (path, manifest, cd))
    (hm : (submitManifest w endpoint path manifest).res = Res.val ())
    (h : ev ∈ (submitSecrets w params template).trace) :
    ev ∈ (commitDeployment w params template).trace := by
  simp [commitDeployment]
  exact Or.inr ⟨endpoint, mrenclave, mrsigner, hi,
    Or.inr ⟨path, manifest, cd, hp, Or.inr ⟨⟨(), hm⟩, Or.inl h⟩⟩⟩

theorem mem_deploy_of_commitDeployment (w : World) (params : ConfTempDeployParams)
    (template : ConfidentialTemplate) (ev : Event)
    (hr : (readRequest w).res = Res.val (params, template))
    (h : ev ∈ (commitDeployment w params template).trace) :
    ev ∈ (deployConfidentialTemplate w).trace := by
  simp [deployConfidentialTemplate]
  exact Or.inr ⟨params, template, hr, Or.inl h⟩

/-- A call made by the handler after a request was read and validated is a
call of `commitDeployment` or of `deployContainer`. -/
theorem mem_deploy_cases (w : World) (ev : Event)
    (h : ev ∈ (deployConfidentialTemplate w).trace) :
    ev ∈ (readRequest w).trace ∨
    ∃ params template, (readRequest w).res = Res.val (params, template) ∧
      (ev ∈ (commitDeployment w params template).trace ∨
        ∃ mounts, (commitDeployment w params template).res = Res.val mounts ∧
          ev ∈ (deployContainer w params template mounts).trace) := by
  simp [deployConfidentialTemplate] at h
  rcases h with h | ⟨params, template, hr, h | ⟨mounts, hc, h⟩⟩
  · exact Or.inl h
  · exact Or.inr ⟨params, template, hr, Or.inl h⟩
  · exact Or.inr ⟨params, template, hr, Or.inr ⟨mounts, hc, h⟩⟩

theorem deploy_commit_mem (w : World) (ev : Event) (h1 : 1 ≤ ev.stage) (h5 : ev.stage ≤ 5)
    (h : ev ∈ (deployConfidentialTemplate w).trace) :
    ∃ params template, (readRequest w).res = Res.val (params, template) ∧
      ev ∈ (commitDeployment w params template).trace := by
  rcases mem_deploy_cases w ev h with h | ⟨params, template, hr, h | ⟨mounts, _, h⟩⟩
  · have := readRequest_stage _ _ h
    omega
  · exact ⟨params, template, hr, h⟩
  · have := deployContainer_stage _ _ _ _ _ h
    omega

theorem deploy_res_of_readRequest (w : World) (params : ConfTempDeployParams)
    (template : ConfidentialTemplate) (hr : (readRequest w).res = Res.val (params, template)) :
    (deployConfidentialTemplate w).res =
      (commitDeployment w params template >>= fun mounts =>
        deployContainer w params template mounts).res := by
  unfold deployConfidentialTemplate
  rw [Step.res_bind_of_val _ _ _ hr]

/-! ## C9: the single write to the repository -/

theorem Step.trace_bind {α β : Type} (s : Step α) (f : α → Step β) :
    (s >>= f).trace = s.trace ++
      (match s.res with
        | Res.val a => (f a).trace
        | _ => []) := by
  show (Step.andThen s f).trace = _
  unfold Step.andThen
  cases s.res <;> simp

theorem isUpdate_iff_stage (ev : Event) : ev.isUpdate = true ↔ ev.stage = 5 := by
  cases ev with
  | coordinatorPost path body => cases body <;> simp [Event.isUpdate]
  | _ => simp [Event.isUpdate]

theorem countP_isUpdate_eq_zero (l : List Event) (h : ∀ ev ∈ l, ev.stage ≠ 5) :
    l.countP Event.isUpdate = 0 := by
  rw [List.countP_eq_zero]
  intro ev hev hu
  exact h ev hev ((isUpdate_iff_stage ev).1 hu)

theorem writeBack_trace_length (w : World) (params : ConfTempDeployParams)
    (manifest : CoordinatorManifest) (cd : CoordinatorDeployment) :
    (writeBack w params manifest cd).trace.length ≤ 1 := by
  unfold writeBack
  cases mergeFragment params.Name manifest cd.Manifest with
  | none =>
    rw [Step.trace_bind]
    simp [orPanic]
  | some merged =>
    simp only [orPanic, Step.pure_andThen, Step.call_andThen]
    simp

theorem commitDeployment_countP (w : World) (params : ConfTempDeployParams)
    (template : ConfidentialTemplate) :
    (commitDeployment w params template).trace.countP Event.isUpdate ≤ 1 := by
  unfold commitDeployment
  rw [Step.trace_bind, List.countP_append,
    countP_isUpdate_eq_zero _ fun ev h => by rw [inspectImage_stage _ _ _ _ h]; decide]
  split
  · rename_i a _
    obtain ⟨endpoint, mre, mrs⟩ := a
    simp only []
    rw [Step.trace_bind, List.countP_append,
      countP_isUpdate_eq_zero _ fun ev h => by rw [prepareManifest_stage _ _ _ _ _ _ h]; decide]
    split
    · rename_i b _
      obtain ⟨path, m, cd⟩ := b
      simp only []
      rw [Step.trace_bind, List.countP_append,
        countP_isUpdate_eq_zero _ fun ev h => by rw [submitManifest_stage _ _ _ _ _ h]; decide]
      split
      · rw [Step.trace_bind, List.countP_append,
          countP_isUpdate_eq_zero _ fun ev h => by rw [submitSecrets_stage _ _ _ _ h]; decide]
        split
        · rw [Step.trace_bind, List.countP_append]
          have h1 := writeBack_trace_length w params m cd
          have h2 := List.countP_le_length Event.isUpdate (l := (writeBack w params m cd).trace)
          split <;> simp <;> omega
        · simp
      · simp
    · simp
  · simp

/-- C9: the handler writes to the CoordinatorDeployment repository at most
once; a run that returns an error of a step before the write-back, or that
panics, has made no such write; and a write is preceded by a secret
submission that returned without error. -/
theorem write_back_only_after_secret_submission (w : World) :
    (deployConfidentialTemplate w).trace.countP Event.isUpdate ≤ 1 ∧
    (∀ e, (deployConfidentialTemplate w).res = Res.fail e →
      e.Message ∈ beforeWriteBackMessages →
      ∀ ev ∈ (deployConfidentialTemplate w).trace, ev.isUpdate = false) ∧
    ((deployConfidentialTemplate w).res = Res.panic →
      ∀ ev ∈ (deployConfidentialTemplate w).trace, ev.isUpdate = false) ∧
    (∀ id cd, Event.coordinatorDeploymentUpdate id cd ∈ (deployConfidentialTemplate w).trace →
      ∃ body status, Event.coordinatorPost "secrets" body ∈ (deployConfidentialTemplate w).trace ∧
        w.post "secrets" body = Except.ok status) := by
  have key : ∀ ev ∈ (deployConfidentialTemplate w).trace, ev.isUpdate = true →
      ((∃ a, (deployConfidentialTemplate w).res = Res.val a) ∨
        ∃ e, (deployConfidentialTemplate w).res = Res.fail e ∧
          e.Message ∈ fromWriteBackMessages) ∧
      ∃ body status, Event.coordinatorPost "secrets" body ∈ (deployConfidentialTemplate w).trace ∧
        w.post "secrets" body = Except.ok status := by
    intro ev hev hu
    have hs := (isUpdate_iff_stage ev).1 hu
    obtain ⟨params, template, hr, hc⟩ := deploy_commit_mem w ev (by omega) (by omega) hev
    obtain ⟨endpoint, mre, mrs, path, m, cd, mounts, merged, hi, hp, hm, hsec, _, _, hres⟩ :=
      commitDeployment_update_inv w params template ev hs hc
    constructor
    · rw [deploy_res_of_readRequest w params template hr]
      cases hu2 : w.update cd.ID { cd with Manifest := merged } with
      | ok u =>
        rw [hu2] at hres
        have hcv : (commitDeployment w params template).res = Res.val mounts := by
          rw [hres]; rfl
        rw [Step.res_bind_of_val _ _ _ hcv]
        cases hd : (deployContainer w params template mounts).res with
        | val a => exact Or.inl ⟨a, rfl⟩
        | fail e =>
          refine Or.inr ⟨e, rfl, ?_⟩
          have := (deployContainer_fail _ _ _ _ _ hd).2
          simp [fromWriteBackMessages] at this ⊢
          tauto
        | panic => exact absurd hd (deployContainer_panic _ _ _ _)
      | error err =>
        rw [hu2] at hres
        have hcf : (commitDeployment w params template).res =
            Res.fail (internalServerError "Could not update manifest in DB" err) := by
          rw [hres]; rfl
        rw [Step.res_bind_of_fail _ _ _ hcf]
        exact Or.inr ⟨_, rfl, by simp [fromWriteBackMessages, internalServerError]⟩
    · obtain ⟨body, status, hb, hpost⟩ := submitSecrets_val w params template mounts hsec
      exact ⟨body, status, mem_deploy_of_commitDeployment w params template _ hr
        (mem_commitDeployment_of_submitSecrets w params template _ endpoint mre mrs path m cd
          hi hp hm hb), hpost⟩
  refine ⟨?_, ?_, ?_, ?_⟩
  · unfold deployConfidentialTemplate
    rw [Step.trace_bind, List.countP_append,
      countP_isUpdate_eq_zero _ fun ev h => by rw [readRequest_stage _ _ h]; decide]
    split
    · rename_i a _
      obtain ⟨params, template⟩ := a
      simp only []
      rw [Step.trace_bind, List.countP_append]
      have h1 := commitDeployment_countP w params template
      split
      · rename_i mounts _
        have h2 := countP_isUpdate_eq_zero (deployContainer w params template mounts).trace
          fun ev h => by rw [deployContainer_stage _ _ _ _ _ h]; decide
        omega
      · simp
        omega
    · simp
  · intro e he hmsg ev hev
    by_contra hu
    have hu2 : ev.isUpdate = true := by simpa using hu
    rcases (key ev hev hu2).1 with ⟨a, ha⟩ | ⟨e2, he2, hm2⟩
    · rw [ha] at he
      cases he
    · rw [he2] at he
      cases he
      revert hmsg hm2
      simp only [beforeWriteBackMessages, fromWriteBackMessages, List.mem_cons,
        List.mem_singleton, List.not_mem_nil, or_false]
      intro h1 h2
      rcases h2 with h2 | h2 | h2 | h2 | h2 | h2 <;> rw [h2] at h1 <;> simp at h1
  · intro hp ev hev
    by_contra hu
    have hu2 : ev.isUpdate = true := by simpa using hu
    rcases (key ev hev hu2).1 with ⟨a, ha⟩ | ⟨e2, he2, _⟩
    · rw [ha] at hp
      cases hp
    · rw [he2] at hp
      cases hp
  · intro id cd h
    exact (key _ h rfl).2

/-! ## C3: the answer of the coordinator to the manifest -/

theorem orInternal_map_andThen {α β : Type} (msg : String) (x : Except String α) (f : α → α)
    (k : Step β) :
    (orInternal msg (Except.map f x) >>= fun _ => k) = (orInternal msg x >>= fun _ => k) := by
  cases x <;> rfl

theorem resolveSecrets_mapStatus (w : World) (f : Nat → Nat) (template : ConfidentialTemplate)
    (reqInputs : GoMap String) (es : List (String × String)) (rs : GoMap (GoMap String)) :
    resolveSecrets (w.mapStatus f) template reqInputs es rs =
      resolveSecrets w template reqInputs es rs := by
  induction es generalizing rs with
  | nil => rfl
  | cons hd tl ih =>
    obtain ⟨k, v⟩ := hd
    simp only [resolveSecrets, ih]
    rfl

theorem mountVolumes_mapStatus (w : World) (f : Nat → Nat) (reqInputs : GoMap String)
    (inputs : List ConfidentialTemplateInput) (acc : GoMap (GoMap String) × List Mount) :
    mountVolumes (w.mapStatus f) reqInputs inputs acc = mountVolumes w reqInputs inputs acc := by
  induction inputs generalizing acc with
  | nil => rfl
  | cons val rest ih =>
    obtain ⟨rs, mounts⟩ := acc
    simp only [mountVolumes, ih]
    rfl

theorem portMapping_mapStatus (w : World) (f : Nat → Nat) (reqInputs : GoMap String)
    (inputs : List ConfidentialTemplateInput) (acc : GoMap Unit × GoMap (List PortBinding)) :
    portMapping (w.mapStatus f) reqInputs inputs acc = portMapping w reqInputs inputs acc := by
  induction inputs generalizing acc with
  | nil => rfl
  | cons val rest ih =>
    obtain ⟨exposed, binding⟩ := acc
    simp only [portMapping, ih]
    rfl

theorem submitManifest_mapStatus (w : World) (f : Nat → Nat) (endpoint : Endpoint)
    (path : String) (manifest : CoordinatorManifest) :
    submitManifest (w.mapStatus f) endpoint path manifest =
      submitManifest w endpoint path manifest := by
  unfold submitManifest
  show (orInternal "Could not marshal manifest" (w.marshalManifest manifest) >>= fun _ =>
    orInternal "Could not parse endpoint URL" (w.parseURL endpoint.URL) >>= fun _ =>
    call (Event.coordinatorPost path (PostBody.manifest manifest)) >>= fun _ =>
    orInternal "error request" (Except.map f (w.post path (PostBody.manifest manifest))) >>=
      fun _ => pure ()) = _
  rw [orInternal_map_andThen]

theorem submitSecrets_mapStatus (w : World) (f : Nat → Nat) (params : ConfTempDeployParams)
    (template : ConfidentialTemplate) :
    submitSecrets (w.mapStatus f) params template = submitSecrets w params template := by
  unfold submitSecrets
  simp only [resolveSecrets_mapStatus, mountVolumes_mapStatus]
  congr 1
  funext rs
  congr 1
  funext x
  obtain ⟨rs2, mounts⟩ := x
  show (call (Event.coordinatorPost "secrets" (PostBody.secrets rs2)) >>= fun _ =>
    orInternal "Could not set secrets" (Except.map f (w.post "secrets" (PostBody.secrets rs2)))
      >>= fun _ => pure mounts) = _
  rw [orInternal_map_andThen]

theorem deploy_mapStatus (w : World) (f : Nat → Nat) :
    deployConfidentialTemplate (w.mapStatus f) = deployConfidentialTemplate w := by
  have hc : ∀ params template,
      commitDeployment (w.mapStatus f) params template = commitDeployment w params template := by
    intro params template
    unfold commitDeployment
    simp only [submitManifest_mapStatus, submitSecrets_mapStatus]
    rfl
  have hd : ∀ params template mounts,
      deployContainer (w.mapStatus f) params template mounts =
        deployContainer w params template mounts := by
    intro params template mounts
    unfold deployContainer
    simp only [portMapping_mapStatus]
    rfl
  unfold deployConfidentialTemplate
  simp only [hc, hd]
  rfl

/-- C3, counterexample: the coordinator answers the manifest submission with
status 500 and no transport error, yet the handler goes on, submits the
secrets, writes the CoordinatorDeployment back and ends without an error. -/
theorem rejected_manifest_is_still_committed :
    rejectingWorld.post "manifest" (PostBody.manifest demoSeededManifest) = Except.ok 500 ∧
    Event.coordinatorPost "manifest" (PostBody.manifest demoSeededManifest) ∈
      (deployConfidentialTemplate rejectingWorld).trace ∧
    (deployConfidentialTemplate rejectingWorld).res = Res.val "c1" ∧
    Event.coordinatorPost "secrets" (PostBody.secrets (GoMap.mk
        [("s1", GoMap.mk [("Key", "dG9rZW49YWJj")])])) ∈
      (deployConfidentialTemplate rejectingWorld).trace ∧
    Event.coordinatorDeploymentUpdate 5 demoBootstrapped ∈
      (deployConfidentialTemplate rejectingWorld).trace := by
  refine ⟨rfl, ?_, ?_, ?_, ?_⟩ <;> decide

/-- C3, amended: when the POST of the manifest returns a transport error, the
handler returns the error "error request" and makes no later call (no secret
submission, no Update); the status of a response is never read, so that the
run is the same whatever statuses the coordinator answers with. -/
theorem manifest_transport_error_aborts (w : World) (path : String)
    (manifest : CoordinatorManifest) (err : String)
    (h : Event.coordinatorPost path (PostBody.manifest manifest) ∈
      (deployConfidentialTemplate w).trace)
    (herr : w.post path (PostBody.manifest manifest) = Except.error err) :
    (deployConfidentialTemplate w).res = Res.fail (internalServerError "error request" err) ∧
    (∀ ev ∈ (deployConfidentialTemplate w).trace, ev.stage ≤ 3 ∧ ev.isUpdate = false) ∧
    ∀ f : Nat → Nat, deployConfidentialTemplate (w.mapStatus f) = deployConfidentialTemplate w := by
  obtain ⟨params, template, hr, hc⟩ := deploy_commit_mem w _ (by simp) (by simp) h
  obtain ⟨hres, hst⟩ := commitDeployment_post_error w params template path manifest err hc herr
  refine ⟨?_, ?_, fun f => deploy_mapStatus w f⟩
  · rw [deploy_res_of_readRequest w params template hr, Step.res_bind_of_fail _ _ _ hres]
  · intro ev hev
    have h3 : ev.stage ≤ 3 := by
      rcases mem_deploy_cases w ev hev with h1 | ⟨p2, t2, hr2, h1 | ⟨mounts, hcv, _⟩⟩
      · have := readRequest_stage _ _ h1
        omega
      · rw [hr] at hr2
        cases hr2
        exact hst ev h1
      · rw [hr] at hr2
        cases hr2
        rw [hres] at hcv
        cases hcv
    refine ⟨h3, ?_⟩
    cases hu : ev.isUpdate with
    | false => rfl
    | true =>
      have := (isUpdate_iff_stage ev).1 hu
      omega

/-! ## C5: the identity labels of the image -/

theorem commitDeployment_inspect_mem (w : World) (params : ConfTempDeployParams)
    (template : ConfidentialTemplate) (ev : Event) (hs : ev.stage = 1)
    (h : ev ∈ (commitDeployment w params template).trace) :
    ev ∈ (inspectImage w params template).trace := by
  simp [commitDeployment] at h
  rcases h with h | ⟨endpoint, mre, mrs, hi, h | ⟨path, m, cd, hp, h | ⟨hm, h | ⟨_, h⟩⟩⟩⟩
  · exact h
  · have := prepareManifest_stage _ _ _ _ _ _ h
    omega
  · have := submitManifest_stage _ _ _ _ _ h
    omega
  · have := submitSecrets_stage _ _ _ _ h
    omega
  · have := writeBack_stage _ _ _ _ _ h
    omega

theorem JsonVal.assertObject_eq_some (x : Option JsonVal) (fields : List (String × JsonVal)) :
    JsonVal.assertObject x = some fields ↔ x = some (JsonVal.object fields) := by
  cases x with
  | none => simp [JsonVal.assertObject]
  | some v => cases v <;> simp [JsonVal.assertObject]

theorem JsonVal.assertString_eq_some (x : Option JsonVal) (s : String) :
    JsonVal.assertString x = some s ↔ x = some (JsonVal.str s) := by
  cases x with
  | none => simp [JsonVal.assertString]
  | some v => cases v <;> simp [JsonVal.assertString]

theorem extractIdentity_val (JSON : GoMap JsonVal) (mrenclave mrsigner : String) :
    (extractIdentity JSON).res = Res.val (mrenclave, mrsigner) ↔
      HasIdentity JSON mrenclave mrsigner := by
  simp [extractIdentity, HasIdentity, JsonVal.assertObject_eq_some,
    JsonVal.assertString_eq_some]

theorem extractIdentity_not_fail (JSON : GoMap JsonVal) (e : HandlerError) :
    (extractIdentity JSON).res ≠ Res.fail e := by
  simp [extractIdentity]

theorem extractIdentity_trace (JSON : GoMap JsonVal) : (extractIdentity JSON).trace = [] := by
  apply List.eq_nil_iff_forall_not_mem.2
  intro ev
  simp [extractIdentity]

/-- C5, counterexample: for an image whose labels lack `pcc.mrsigner` the
identity extraction ends in a panic, and so does the handler; no error is
returned to the caller. -/
theorem missing_signer_label_panics :
    (extractIdentity noSignerImage).res = Res.panic ∧
    (deployConfidentialTemplate noSignerWorld).res = Res.panic ∧
    (deployConfidentialTemplate noSignerWorld).trace =
      [Event.templateLookup 1, Event.endpointLookup 2, Event.createClient 2,
        Event.imagePull "w:1", Event.imageInspect "w:1"] := by
  refine ⟨?_, ?_, ?_⟩ <;> decide

/-- C5, amended: the identity extraction yields the pair (measurement, signer)
exactly when Config and Labels are objects and both labels are strings; in
every other case it returns no error but panics, and then the handler panics
too, having made no call after the image inspection. -/
theorem identity_extracted_or_panic (JSON : GoMap JsonVal) :
    (∀ mrenclave mrsigner,
      (extractIdentity JSON).res = Res.val (mrenclave, mrsigner) ↔
        HasIdentity JSON mrenclave mrsigner) ∧
    (∀ e, (extractIdentity JSON).res ≠ Res.fail e) ∧
    ((¬ ∃ mrenclave mrsigner, HasIdentity JSON mrenclave mrsigner) →
      (extractIdentity JSON).res = Res.panic) ∧
    (∀ w params template,
      (readRequest w).res = Res.val (params, template) →
      w.imageInspect template.ImageName = Except.ok JSON →
      (¬ ∃ mrenclave mrsigner, HasIdentity JSON mrenclave mrsigner) →
      Event.imageInspect template.ImageName ∈ (deployConfidentialTemplate w).trace →
      (deployConfidentialTemplate w).res = Res.panic ∧
        ∀ ev ∈ (deployConfidentialTemplate w).trace, ev.stage ≤ 1) := by
  have hpanic : (¬ ∃ mrenclave mrsigner, HasIdentity JSON mrenclave mrsigner) →
      (extractIdentity JSON).res = Res.panic := by
    intro hno
    cases h : (extractIdentity JSON).res with
    | val a =>
      obtain ⟨mre, mrs⟩ := a
      exact absurd ⟨mre, mrs, (extractIdentity_val JSON mre mrs).1 h⟩ hno
    | fail e => exact absurd h (extractIdentity_not_fail JSON e)
    | panic => rfl
  refine ⟨extractIdentity_val JSON, extractIdentity_not_fail JSON, hpanic, ?_⟩
  intro w params template hr hj hno hmem
  have hx := hpanic hno
  obtain ⟨p2, t2, hr2, hc⟩ := deploy_commit_mem w _ (by simp) (by simp) hmem
  rw [hr] at hr2
  cases hr2
  have hi : (inspectImage w params template).res = Res.panic := by
    have hc1 := commitDeployment_inspect_mem w params template
      (Event.imageInspect template.ImageName) rfl hc
    simp [inspectImage, extractIdentity_trace] at hc1
    obtain ⟨ep, hep, hcl, hpl⟩ := hc1
    simp [inspectImage, hj, hx]
    exact ⟨ep, hep, hcl, hpl⟩
  have hcp : (commitDeployment w params template).res = Res.panic := by
    unfold commitDeployment
    rw [Step.res_bind_of_panic _ _ hi]
  constructor
  · rw [deploy_res_of_readRequest w params template hr, Step.res_bind_of_panic _ _ hcp]
  · intro ev hev
    rcases mem_deploy_cases w ev hev with h1 | ⟨p3, t3, hr3, h1 | ⟨mounts, hcv, _⟩⟩
    · have := readRequest_stage _ _ h1
      omega
    · rw [hr] at hr3
      cases hr3
      unfold commitDeployment at h1
      rw [Step.trace_bind_of_not_val _ _ (by simp [hi])] at h1
      have := inspectImage_stage _ _ _ _ h1
      omega
    · rw [hr] at hr3
      cases hr3
      rw [hcp] at hcv
      cases hcv

/-! ## C7 and C8: bootstrap and update -/

theorem GoMap.lookup_of_mem_keys {V : Type} [Inhabited V] (m : GoMap V) (key : String)
    (h : key ∈ m.keys) : m.lookup key = some (m.read key) := by
  cases hl : m.lookup key with
  | none => exact absurd h ((GoMap.lookup_eq_none m key).1 hl)
  | some v => simp [GoMap.read, hl]

theorem GoMap.lookup_of_mem_entries {V : Type} (m : GoMap V) (entry : String × V)
    (hwf : m.WF) (h : entry ∈ m.entries) : m.lookup entry.1 = some entry.2 :=
  GoMap.lookupEntries_of_mem m.entries entry.1 entry.2 hwf h

theorem mergeFragment_self (name : String) (m : CoordinatorManifest)
    (hp : name ∈ m.Packages.keys) (hm : name ++ "_marble" ∈ m.Marbles.keys)
    (hs : m.Secrets.WF) : mergeFragment name m m = some m := by
  rw [mergeFragment_of_parts name m m m.Packages m.Marbles m.Secrets
    (GoMap.write_of_lookup _ _ _ (GoMap.lookup_of_mem_keys _ _ hp))
    (GoMap.write_of_lookup _ _ _ (GoMap.lookup_of_mem_keys _ _ hm))
    (copySecrets_fixed _ _ fun entry he => GoMap.lookup_of_mem_entries _ entry hs he)]

theorem prepareManifest_val (w : World) (params : ConfTempDeployParams)
    (template : ConfidentialTemplate) (mrenclave mrsigner path : String)
    (m : CoordinatorManifest) (cd : CoordinatorDeployment)
    (h : (prepareManifest w params template mrenclave mrsigner).res = Res.val (path, m, cd)) :
    ∃ deployments, w.coordinatorDeployments = Except.ok deployments ∧
      (manifestLifecycle w (w.createUpdateManifest template params mrenclave mrsigner)
        (selectDeployment deployments params.EnvId)).res = Res.val (path, m, cd) := by
  simp [prepareManifest] at h
  obtain ⟨_, deployments, hdep, h⟩ := h
  exact ⟨deployments, hdep, h⟩

theorem manifestLifecycle_zero (w : World) (fragment : CoordinatorManifest)
    (selected : CoordinatorDeployment) (path : String) (m : CoordinatorManifest)
    (cd : CoordinatorDeployment) (hz : selected.Manifest = {})
    (h : (manifestLifecycle w fragment selected).res = Res.val (path, m, cd)) :
    path = "manifest" ∧ cd.Manifest = m ∧ cd.ID = selected.ID ∧
      cd.RootCert = selected.RootCert ∧ ∃ certificate, Seeded fragment certificate m := by
  unfold manifestLifecycle at h
  rw [if_pos hz] at h
  simp at h
  obtain ⟨key, _, cert, _, h1, h2, h3⟩ := h
  subst h1 h2 h3
  exact ⟨rfl, rfl, rfl, rfl, _, rfl, rfl, rfl, rfl, rfl⟩

theorem manifestLifecycle_nonzero (w : World) (fragment : CoordinatorManifest)
    (selected : CoordinatorDeployment) (hnz : selected.Manifest ≠ {}) :
    manifestLifecycle w fragment selected = pure ("update", fragment, selected) := by
  unfold manifestLifecycle
  rw [if_neg hnz]

theorem commitDeployment_prepare_mem (w : World) (params : ConfTempDeployParams)
    (template : ConfidentialTemplate) (ev : Event) (hs : ev.stage = 2)
    (h : ev ∈ (commitDeployment w params template).trace) :
    ∃ mrenclave mrsigner, ev ∈ (prepareManifest w params template mrenclave mrsigner).trace := by
  simp [commitDeployment] at h
  rcases h with h | ⟨endpoint, mre, mrs, hi, h | ⟨path, m, cd, hp, h | ⟨hm, h | ⟨_, h⟩⟩⟩⟩
  · have := inspectImage_stage _ _ _ _ h
    omega
  · exact ⟨mre, mrs, h⟩
  · have := submitManifest_stage _ _ _ _ _ h
    omega
  · have := submitSecrets_stage _ _ _ _ h
    omega
  · have := writeBack_stage _ _ _ _ _ h
    omega

/-- C7: on the first deployment to an endpoint (the selected
CoordinatorDeployment has the zero manifest) every manifest POST of the run
goes to the path "manifest", and both the manifest submitted and the manifest
persisted consist of the one user "portainer" with roles updatePackage and
secretManager, the two seed roles, and the Packages, Marbles and Secrets of
the fragment, for a fragment that satisfies the contract of the builder. -/
theorem bootstrap_seeds_users_and_roles (w : World) (params : ConfTempDeployParams)
    (deployments : List CoordinatorDeployment)
    (hd : w.decodeBody = Except.ok params)
    (hc : w.coordinatorDeployments = Except.ok deployments)
    (hz : (selectDeployment deployments params.EnvId).Manifest = {})
    (hb : ∀ template mrenclave mrsigner,
      FragmentFor params.Name (w.createUpdateManifest template params mrenclave mrsigner)) :
    (∀ path m, Event.coordinatorPost path (PostBody.manifest m) ∈
        (deployConfidentialTemplate w).trace →
      path = "manifest" ∧ ∃ template mrenclave mrsigner certificate,
        Seeded (w.createUpdateManifest template params mrenclave mrsigner) certificate m) ∧
    (∀ id cd, Event.coordinatorDeploymentUpdate id cd ∈ (deployConfidentialTemplate w).trace →
      id = (selectDeployment deployments params.EnvId).ID ∧
      ∃ template mrenclave mrsigner certificate,
        Seeded (w.createUpdateManifest template params mrenclave mrsigner) certificate
          cd.Manifest) := by
  constructor
  · intro path m h
    obtain ⟨p2, template, hr, hcm⟩ := deploy_commit_mem w _ (by simp) (by simp) h
    have hp2 := (readRequest_val w p2 template hr).1
    rw [hd] at hp2
    cases hp2
    obtain ⟨endpoint, mre, mrs, path2, m2, cd, _, hp, hev, _⟩ :=
      commitDeployment_post_inv w params template _ (by simp) hcm
    simp only [Event.coordinatorPost.injEq, PostBody.manifest.injEq] at hev
    obtain ⟨rfl, rfl⟩ := hev
    obtain ⟨deps, hdeps, hl⟩ := prepareManifest_val _ _ _ _ _ _ _ _ hp
    rw [hc] at hdeps
    cases hdeps
    obtain ⟨hpath, _, _, _, cert, hseed⟩ := manifestLifecycle_zero _ _ _ _ _ _ hz hl
    exact ⟨hpath, template, mre, mrs, cert, hseed⟩
  · intro id cd2 h
    obtain ⟨p2, template, hr, hcm⟩ := deploy_commit_mem w _ (by simp) (by simp) h
    have hp2 := (readRequest_val w p2 template hr).1
    rw [hd] at hp2
    cases hp2
    obtain ⟨endpoint, mre, mrs, path, m, cd, mounts, merged, _, hp, _, _, hmerge, hev, _⟩ :=
      commitDeployment_update_inv w params template _ (by simp) hcm
    simp only [Event.coordinatorDeploymentUpdate.injEq] at hev
    obtain ⟨rfl, rfl⟩ := hev
    obtain ⟨deps, hdeps, hl⟩ := prepareManifest_val _ _ _ _ _ _ _ _ hp
    rw [hc] at hdeps
    cases hdeps
    obtain ⟨_, hcdm, hid, _, cert, hseed⟩ := manifestLifecycle_zero _ _ _ _ _ _ hz hl
    obtain ⟨hf1, hf2, hf3⟩ := hb template mre mrs
    obtain ⟨hs1, hs2, hs3, hs4, hs5⟩ := hseed
    have hself : mergeFragment params.Name m m = some m :=
      mergeFragment_self params.Name m (by rw [hs3, hf1]; simp) (by rw [hs4, hf2]; simp)
        (by rw [hs5]; exact hf3)
    rw [hcdm, hself] at hmerge
    cases hmerge
    exact ⟨hid, template, mre, mrs, cert, hs1, hs2, hs3, hs4, hs5⟩

/-- C8: on a deployment to an initialised endpoint (the selected
CoordinatorDeployment has a non-zero manifest) every manifest POST goes to the
path "update", no key pair and no certificate is generated, and the persisted
aggregate keeps Users, Roles, RootCert, UserCert and UserPrivateKey, while
Packages, Marbles and Secrets take the value of the fragment on the keys of
the fragment and keep every other entry, for a fragment that satisfies the
contract of the builder. -/
theorem update_keeps_credentials_and_other_entries (w : World)
    (params : ConfTempDeployParams) (deployments : List CoordinatorDeployment)
    (hd : w.decodeBody = Except.ok params)
    (hc : w.coordinatorDeployments = Except.ok deployments)
    (hnz : (selectDeployment deployments params.EnvId).Manifest ≠ {})
    (hb : ∀ template mrenclave mrsigner,
      FragmentFor params.Name (w.createUpdateManifest template params mrenclave mrsigner)) :
    (∀ path m, Event.coordinatorPost path (PostBody.manifest m) ∈
        (deployConfidentialTemplate w).trace → path = "update") ∧
    Event.generateKey ∉ (deployConfidentialTemplate w).trace ∧
    Event.createUserCert ∉ (deployConfidentialTemplate w).trace ∧
    (∀ id cd, Event.coordinatorDeploymentUpdate id cd ∈ (deployConfidentialTemplate w).trace →
      id = (selectDeployment deployments params.EnvId).ID ∧
      cd.Manifest.Users = (selectDeployment deployments params.EnvId).Manifest.Users ∧
      cd.Manifest.Roles = (selectDeployment deployments params.EnvId).Manifest.Roles ∧
      cd.RootCert = (selectDeployment deployments params.EnvId).RootCert ∧
      cd.UserCert = (selectDeployment deployments params.EnvId).UserCert ∧
      cd.UserPrivateKey = (selectDeployment deployments params.EnvId).UserPrivateKey ∧
      ∃ template mrenclave mrsigner,
        Overwrites (w.createUpdateManifest template params mrenclave mrsigner).Packages
          (selectDeployment deployments params.EnvId).Manifest.Packages cd.Manifest.Packages ∧
        Overwrites (w.createUpdateManifest template params mrenclave mrsigner).Marbles
          (selectDeployment deployments params.EnvId).Manifest.Marbles cd.Manifest.Marbles ∧
        Overwrites (w.createUpdateManifest template params mrenclave mrsigner).Secrets
          (selectDeployment deployments params.EnvId).Manifest.Secrets cd.Manifest.Secrets) := by
  have hnokey : ∀ ev ∈ (deployConfidentialTemplate w).trace,
      ev ≠ Event.generateKey ∧ ev ≠ Event.createUserCert := by
    intro ev hev
    by_contra hcon
    have hs : ev.stage = 2 := by
      by_cases h1 : ev = Event.generateKey
      · rw [h1]; rfl
      · have h2 : ev = Event.createUserCert := by tauto
        rw [h2]; rfl
    obtain ⟨p2, template, hr, hcm⟩ := deploy_commit_mem w ev (by omega) (by omega) hev
    have hp2 := (readRequest_val w p2 template hr).1
    rw [hd] at hp2
    cases hp2
    obtain ⟨mre, mrs, hpm⟩ := commitDeployment_prepare_mem w params template ev hs hcm
    simp [prepareManifest, hc, manifestLifecycle_nonzero _ _ _ hnz] at hpm
    rcases hpm with h1 | ⟨_, h1⟩ <;> subst h1 <;> simp at hcon
  refine ⟨?_, fun h => (hnokey _ h).1 rfl, fun h => (hnokey _ h).2 rfl, ?_⟩
  · intro path m h
    obtain ⟨p2, template, hr, hcm⟩ := deploy_commit_mem w _ (by simp) (by simp) h
    have hp2 := (readRequest_val w p2 template hr).1
    rw [hd] at hp2
    cases hp2
    obtain ⟨endpoint, mre, mrs, path2, m2, cd, _, hp, hev, _⟩ :=
      commitDeployment_post_inv w params template _ (by simp) hcm
    simp only [Event.coordinatorPost.injEq, PostBody.manifest.injEq] at hev
    obtain ⟨rfl, rfl⟩ := hev
    obtain ⟨deps, hdeps, hl⟩ := prepareManifest_val _ _ _ _ _ _ _ _ hp
    rw [hc] at hdeps
    cases hdeps
    rw [manifestLifecycle_nonzero _ _ _ hnz] at hl
    simp at hl
    exact hl.1.symm
  · intro id cd2 h
    obtain ⟨p2, template, hr, hcm⟩ := deploy_commit_mem w _ (by simp) (by simp) h
    have hp2 := (readRequest_val w p2 template hr).1
    rw [hd] at hp2
    cases hp2
    obtain ⟨endpoint, mre, mrs, path, m, cd, mounts, merged, _, hp, _, _, hmerge, hev, _⟩ :=
      commitDeployment_update_inv w params template _ (by simp) hcm
    simp only [Event.coordinatorDeploymentUpdate.injEq] at hev
    obtain ⟨rfl, rfl⟩ := hev
    obtain ⟨deps, hdeps, hl⟩ := prepareManifest_val _ _ _ _ _ _ _ _ hp
    rw [hc] at hdeps
    cases hdeps
    rw [manifestLifecycle_nonzero _ _ _ hnz] at hl
    simp at hl
    obtain ⟨_, rfl, rfl⟩ := hl
    obtain ⟨hP, hM, hS, hU, hR⟩ := mergeFragment_eq_some _ _ _ _ hmerge
    obtain ⟨hf1, hf2, hf3⟩ := hb template mre mrs
    refine ⟨rfl, hU, hR, rfl, rfl, rfl, template, mre, mrs, ?_, ?_, ?_⟩
    · intro key
      rw [hf1]
      constructor
      · intro hk
        have hk2 : key = params.Name := by simpa using hk
        subst hk2
        rw [GoMap.lookup_write_same _ _ _ _ hP,
          GoMap.lookup_of_mem_keys _ _ (by rw [hf1]; simp)]
      · intro hk
        have hk2 : key ≠ params.Name := by simpa using hk
        exact GoMap.lookup_write_ne _ _ _ _ _ hk2 hP
    · intro key
      rw [hf2]
      constructor
      · intro hk
        have hk2 : key = params.Name ++ "_marble" := by simpa using hk
        subst hk2
        rw [GoMap.lookup_write_same _ _ _ _ hM,
          GoMap.lookup_of_mem_keys _ _ (by rw [hf2]; simp)]
      · intro hk
        have hk2 : key ≠ params.Name ++ "_marble" := by simpa using hk
        exact GoMap.lookup_write_ne _ _ _ _ _ hk2 hM
    · intro key
      constructor
      · intro hk
        obtain ⟨entry, he, hek⟩ := List.mem_map.1 hk
        subst hek
        rw [copySecrets_lookup_mem _ _ _ entry.1 entry.2 hf3 he hS,
          GoMap.lookup_of_mem_entries _ entry hf3 he]
      · intro hk
        exact copySecrets_lookup_not_mem _ _ _ key hk hS

/-! ## C4: a volume whose key record is missing -/

/-- C4, the code at the failing input: the key repository reports
object-not-found for the key id recorded on the volume; the handler returns no
error: with the nil key it panics at `key.PFKey`, and with a zero key record it
submits an empty key to the coordinator and writes the aggregate back. -/
theorem missing_key_record_is_not_reported :
    missingKeyWorld.key 7 = (none, some DbError.objectNotFound) ∧
    Event.keyLookup 7 ∈ (deployConfidentialTemplate missingKeyWorld).trace ∧
    (deployConfidentialTemplate missingKeyWorld).res = Res.panic ∧
    (deployConfidentialTemplate missingKeyZeroWorld).res = Res.val "c1" ∧
    Event.coordinatorPost "secrets" (PostBody.secrets (GoMap.mk
        [("s1", GoMap.mk [("Key", "dG9rZW49YWJj")]), ("pfkey", GoMap.mk [("Key", "")])])) ∈
      (deployConfidentialTemplate missingKeyZeroWorld).trace ∧
    ((deployConfidentialTemplate missingKeyZeroWorld).trace.filter Event.isUpdate).length = 1 := by
  refine ⟨rfl, ?_, ?_, ?_, ?_, ?_⟩ <;> decide

/-! ## C10: the port mapping -/

theorem GoMap.mem_keys_put {V : Type} (m : GoMap V) (key p : String) (v : V) :
    p ∈ (m.put key v).keys ↔ p = key ∨ p ∈ m.keys := by
  show p ∈ (GoMap.setEntries m.entries key v).map Prod.fst ↔ _
  rw [GoMap.keys_setEntries]
  split
  · rename_i h
    constructor
    · exact fun hp => Or.inr hp
    · rintro (rfl | hp)
      · exact h
      · exact hp
  · simp [GoMap.keys, or_comm]

theorem portMapping_spec (w : World) (reqInputs : GoMap String)
    (inputs : List ConfidentialTemplateInput) (acc : GoMap Unit × GoMap (List PortBinding))
    (hp : ∀ val ∈ inputs, val.Type_ = "PORT" →
      ∃ p, w.newPort val.PortType val.PortContainer = Except.ok p) :
    ∃ exposed binding, (portMapping w reqInputs inputs acc).res = Res.val (exposed, binding) ∧
      (∀ p, p ∈ exposed.keys ↔ p ∈ acc.1.keys ∨ ∃ val ∈ inputs, w.portOf val p) ∧
      (∀ p, p ∈ binding.keys ↔ p ∈ acc.2.keys ∨ ∃ val ∈ inputs, w.portOf val p) ∧
      (∀ p, (∀ val ∈ inputs, ¬ w.portOf val p) → binding.lookup p = acc.2.lookup p) ∧
      (∀ p pre val post, inputs = pre ++ val :: post → w.portOf val p →
        (∀ later ∈ post, ¬ w.portOf later p) →
        binding.lookup p = some [⟨"", reqInputs.read val.Label⟩]) := by
  induction inputs generalizing acc with
  | nil =>
    obtain ⟨e0, b0⟩ := acc
    refine ⟨e0, b0, rfl, by simp, by simp, by simp, ?_⟩
    intro p pre val post h
    simp at h
  | cons hd tl ih =>
    obtain ⟨e0, b0⟩ := acc
    have htl : ∀ val ∈ tl, val.Type_ = "PORT" →
        ∃ p, w.newPort val.PortType val.PortContainer = Except.ok p :=
      fun val hv => hp val (List.mem_cons_of_mem _ hv)
    by_cases hport : hd.Type_ = "PORT"
    · obtain ⟨q, hq⟩ := hp hd (List.mem_cons_self _ _) hport
      obtain ⟨exposed, binding, hres, hk1, hk2, hl1, hl2⟩ :=
        ih (e0.put q (), b0.put q [⟨"", reqInputs.read hd.Label⟩]) htl
      have hof : ∀ p, w.portOf hd p ↔ p = q := by
        intro p
        simp only [World.portOf, hport, hq, true_and, Except.ok.injEq]
        exact eq_comm
      refine ⟨exposed, binding, ?_, ?_, ?_, ?_, ?_⟩
      · simp only [portMapping, if_pos hport, hq, orInternal, Step.pure_andThen]
        exact hres
      · intro p
        rw [hk1 p, GoMap.mem_keys_put]
        simp only [List.mem_cons, exists_eq_or_imp, hof]
        tauto
      · intro p
        rw [hk2 p, GoMap.mem_keys_put]
        simp only [List.mem_cons, exists_eq_or_imp, hof]
        tauto
      · intro p hno
        have hne : p ≠ q := fun e => hno hd (List.mem_cons_self _ _) ((hof p).2 e)
        rw [hl1 p fun val hv => hno val (List.mem_cons_of_mem _ hv)]
        exact GoMap.lookup_put_ne _ _ _ _ hne
      · intro p pre val post hsplit hval hpost
        cases pre with
        | nil =>
          simp only [List.nil_append, List.cons.injEq] at hsplit
          obtain ⟨rfl, rfl⟩ := hsplit
          have hpq : p = q := (hof p).1 hval
          subst hpq
          rw [hl1 p hpost]
          exact GoMap.lookup_put_same _ _ _
        | cons x pre2 =>
          simp only [List.cons_append, List.cons.injEq] at hsplit
          exact hl2 p pre2 val post hsplit.2 hval hpost
    · obtain ⟨exposed, binding, hres, hk1, hk2, hl1, hl2⟩ := ih (e0, b0) htl
      have hof : ∀ p, ¬ w.portOf hd p := fun p h => hport h.1
      refine ⟨exposed, binding, ?_, ?_, ?_, ?_, ?_⟩
      · simp only [portMapping, if_neg hport]
        exact hres
      · intro p
        rw [hk1 p]
        simp only [List.mem_cons, exists_eq_or_imp, hof, false_or]
      · intro p
        rw [hk2 p]
        simp only [List.mem_cons, exists_eq_or_imp, hof, false_or]
      · intro p hno
        exact hl1 p fun val hv => hno val (List.mem_cons_of_mem _ hv)
      · intro p pre val post hsplit hval hpost
        cases pre with
        | nil =>
          simp only [List.nil_append, List.cons.injEq] at hsplit
          obtain ⟨rfl, rfl⟩ := hsplit
          exact absurd hval (hof p)
        | cons x pre2 =>
          simp only [List.cons_append, List.cons.injEq] at hsplit
          exact hl2 p pre2 val post hsplit.2 hval hpost

/-- C10, counterexample: two PORT inputs A and B declare the same container
port 8080/tcp and the validated request gives host port 1 to A and 2 to B; the
port is bound to host port 2 only, not to the value of input A. -/
theorem duplicate_port_keeps_last_binding :
    (validateInputs twoPortInputs twoPortRequest).res = Res.val () ∧
    (portMapping demoWorld twoPortRequest twoPortInputs (GoMap.empty, GoMap.empty)).res =
      Res.val (GoMap.mk [("8080/tcp", ())], GoMap.mk [("8080/tcp", [⟨"", "2"⟩])]) := by
  constructor <;> decide

/-- C10, amended: when `nat.NewPort` accepts every PORT input, the loop yields
an exposed-port set and a binding map whose keys are exactly the ports of the
PORT inputs (inputs of other types add none), and each port is bound to the
single binding with empty HostIP whose HostPort is the request value for the
label of the last PORT input that yields that port. -/
theorem port_mapping_binds_last_input (w : World) (reqInputs : GoMap String)
    (inputs : List ConfidentialTemplateInput)
    (hp : ∀ val ∈ inputs, val.Type_ = "PORT" →
      ∃ p, w.newPort val.PortType val.PortContainer = Except.ok p) :
    ∃ exposed binding,
      (portMapping w reqInputs inputs (GoMap.empty, GoMap.empty)).res =
        Res.val (exposed, binding) ∧
      (∀ p, p ∈ exposed.keys ↔ ∃ val ∈ inputs, w.portOf val p) ∧
      (∀ p, p ∈ binding.keys ↔ ∃ val ∈ inputs, w.portOf val p) ∧
      (∀ p pre val post, inputs = pre ++ val :: post → w.portOf val p →
        (∀ later ∈ post, ¬ w.portOf later p) →
        binding.lookup p = some [⟨"", reqInputs.read val.Label⟩]) := by
  obtain ⟨exposed, binding, hres, hk1, hk2, _, hl2⟩ :=
    portMapping_spec w reqInputs inputs (GoMap.empty, GoMap.empty) hp
  refine ⟨exposed, binding, hres, ?_, ?_, hl2⟩
  · intro p
    rw [hk1 p]
    simp [GoMap.empty, GoMap.keys, GoMap.entries]
  · intro p
    rw [hk2 p]
    simp [GoMap.empty, GoMap.keys, GoMap.entries]

/-! ## The theorems at the scenario of the spec -/

theorem demoWorld_builder_contract (deployments : Except String (List CoordinatorDeployment))
    (template : ConfidentialTemplate) (mrenclave mrsigner : String) :
    FragmentFor demoParams.Name
      ({ demoWorld with coordinatorDeployments := deployments }.createUpdateManifest
        template demoParams mrenclave mrsigner) :=
  ⟨rfl, rfl, by simp [GoMap.WF, GoMap.keys, GoMap.entries, World.createUpdateManifest,
    demoWorld, demoFragment]⟩

/-- C1 at the scenario without a value for TOK: the handler returns the
validation error after the template lookup alone. -/
theorem validation_rejects_exactly_missing_labels_witness :
    missingTokWorld.decodeBody =
      Except.ok { demoParams with Inputs := GoMap.mk [("PORT", "9090")] } ∧
    (deployConfidentialTemplate missingTokWorld).res =
      Res.fail (badRequest "request body malefomred" "values missing.") ∧
    (deployConfidentialTemplate missingTokWorld).trace = [Event.templateLookup 1] :=
  have h := validation_rejects_exactly_missing_labels missingTokWorld
    { demoParams with Inputs := GoMap.mk [("PORT", "9090")] } demoTemplate rfl rfl
  ⟨rfl, h.2.1.2 (by decide), (h.2.2 (by decide)).1⟩

/-- C2 at the scenario: secret s1 = "token=<<X>>" with TOK = "abc" resolves to
the base64 encoding of "token=abc". -/
theorem literal_secret_is_base64_of_substitution_witness :
    (resolveSecrets demoWorld demoTemplate demoParams.Inputs demoTemplate.Secrets.entries
      GoMap.empty).res = Res.val (GoMap.mk [("s1", GoMap.mk [("Key", "dG9rZW49YWJj")])]) ∧
    keyOf (GoMap.mk [("s1", GoMap.mk [("Key", "dG9rZW49YWJj")])]) "s1" =
      some (specLiteralSecret demoTemplate.Inputs demoParams.Inputs "s1" "token=<<X>>") ∧
    specLiteralSecret demoTemplate.Inputs demoParams.Inputs "s1" "token=<<X>>" =
      base64EncodeToString (stringBytes "token=abc") :=
  ⟨by decide,
    (literal_secret_is_base64_of_substitution demoWorld demoTemplate demoParams.Inputs "s1"
      "token=<<X>>" (by decide) (by decide) (by decide)).1 _ (by decide),
    by decide⟩

/-- C3, amended, at a world whose manifest POST fails in transport. -/
theorem manifest_transport_error_aborts_witness :
    unreachableWorld.post "manifest" (PostBody.manifest demoSeededManifest) =
      Except.error "connection refused" ∧
    (deployConfidentialTemplate unreachableWorld).res =
      Res.fail (internalServerError "error request" "connection refused") ∧
    ((deployConfidentialTemplate unreachableWorld).trace.filter Event.isUpdate).length = 0 :=
  have h := manifest_transport_error_aborts unreachableWorld "manifest" demoSeededManifest
    "connection refused" (by decide) rfl
  ⟨rfl, h.1, by decide⟩

/-- C5, amended, at the image without `pcc.mrsigner` and at the image of the
scenario. -/
theorem identity_extracted_or_panic_witness :
    (extractIdentity noSignerImage).res = Res.panic ∧
    (extractIdentity demoImage).res = Res.val ("aa", "bb") ∧
    HasIdentity demoImage "aa" "bb" :=
  ⟨by decide, by decide, ((identity_extracted_or_panic demoImage).1 "aa" "bb").1 (by decide)⟩

/-- C6 at the scenario: the fragment of "app" merged into a manifest that
holds "old". -/
theorem merge_fragment_idempotent_witness :
    mergeFragment "app" (demoFragment "app" "aa" "bb") demoDeployed.Manifest =
      some demoUpdated.Manifest ∧
    (mergeFragment "app" (demoFragment "app" "aa" "bb") demoDeployed.Manifest).bind
        (mergeFragment "app" (demoFragment "app" "aa" "bb")) =
      mergeFragment "app" (demoFragment "app" "aa" "bb") demoDeployed.Manifest ∧
    demoUpdated.Manifest.Packages.keys.length ≤ demoDeployed.Manifest.Packages.keys.length + 1 :=
  have h := merge_fragment_idempotent "app" (demoFragment "app" "aa" "bb")
    demoDeployed.Manifest (by decide)
  ⟨by decide, h.1, (h.2.2 demoUpdated.Manifest (by decide)).1⟩

/-- C7 at the scenario: the first deployment posts the seeded manifest to
"manifest" and persists it. -/
theorem bootstrap_seeds_users_and_roles_witness :
    Event.coordinatorPost "manifest" (PostBody.manifest demoSeededManifest) ∈
      (deployConfidentialTemplate demoWorld).trace ∧
    Event.coordinatorDeploymentUpdate 5 demoBootstrapped ∈
      (deployConfidentialTemplate demoWorld).trace ∧
    (∃ template mrenclave mrsigner certificate,
      Seeded (demoWorld.createUpdateManifest template demoParams mrenclave mrsigner)
        certificate demoBootstrapped.Manifest) :=
  have h := bootstrap_seeds_users_and_roles demoWorld demoParams [{ ID := 5, EndpointID := 2 }]
    rfl rfl (by decide) (demoWorld_builder_contract demoWorld.coordinatorDeployments)
  ⟨by decide, by decide, (h.2 5 demoBootstrapped (by decide)).2⟩

/-- C8 at the scenario on an initialised endpoint: the entry "old" and the
credentials are kept, the entries of "app" are added. -/
theorem update_keeps_credentials_and_other_entries_witness :
    Event.coordinatorPost "update" (PostBody.manifest (demoFragment "app" "aa" "bb")) ∈
      (deployConfidentialTemplate updateWorld).trace ∧
    Event.coordinatorDeploymentUpdate 5 demoUpdated ∈
      (deployConfidentialTemplate updateWorld).trace ∧
    Event.generateKey ∉ (deployConfidentialTemplate updateWorld).trace ∧
    demoUpdated.UserCert = (selectDeployment [demoDeployed] demoParams.EnvId).UserCert :=
  have h := update_keeps_credentials_and_other_entries updateWorld demoParams [demoDeployed]
    rfl rfl (by decide) (demoWorld_builder_contract (Except.ok [demoDeployed]))
  ⟨by decide, by decide, h.2.1, (h.2.2.2 5 demoUpdated (by decide)).2.2.2.2.1⟩

/-- C9 at the scenario and at a world whose manifest POST fails: one write
after the secret submission in the first, none in the second. -/
theorem write_back_only_after_secret_submission_witness :
    ((deployConfidentialTemplate demoWorld).trace.countP Event.isUpdate = 1) ∧
    (∃ body status,
      Event.coordinatorPost "secrets" body ∈ (deployConfidentialTemplate demoWorld).trace ∧
        demoWorld.post "secrets" body = Except.ok status) ∧
    (∀ ev ∈ (deployConfidentialTemplate unreachableWorld).trace, ev.isUpdate = false) :=
  ⟨by decide,
    (write_back_only_after_secret_submission demoWorld).2.2.2 5 demoBootstrapped (by decide),
    (write_back_only_after_secret_submission unreachableWorld).2.1
      (internalServerError "error request" "connection refused") (by decide) (by decide)⟩

/-- C10, amended, at the scenario: host 9090 is bound to container 8080/tcp. -/
theorem port_mapping_binds_last_input_witness :
    (portMapping demoWorld demoParams.Inputs demoTemplate.Inputs (GoMap.empty, GoMap.empty)).res =
      Res.val (GoMap.mk [("8080/tcp", ())], GoMap.mk [("8080/tcp", [⟨"", "9090"⟩])]) ∧
    ∃ exposed binding,
      (portMapping demoWorld demoParams.Inputs demoTemplate.Inputs
        (GoMap.empty, GoMap.empty)).res = Res.val (exposed, binding) ∧
      ∀ p, p ∈ exposed.keys ↔ ∃ val ∈ demoTemplate.Inputs, demoWorld.portOf val p :=
  have h := port_mapping_binds_last_input demoWorld demoParams.Inputs demoTemplate.Inputs
    (fun val _ _ => ⟨_, rfl⟩)
  ⟨by decide, h.elim fun exposed h2 => h2.elim fun binding h3 =>
    ⟨exposed, binding, h3.1, h3.2.1⟩⟩

end PortainerCC
